import Mathlib

/-! # InternalRequest status-condition machine

A shallow embedding of `api/v1alpha1/internalrequest_types.go`: the record
`InternalRequest`, its predicates `HasCompleted`, `HasFailed`, `HasSucceeded`,
`IsRunning` and its mutators `MarkFailed`, `MarkRejected`, `MarkRunning`,
`MarkSucceeded`.

Conventions of the embedding:
* Go strings are `String`; `metav1.ConditionStatus` is a Go string type and is
  kept as a `String`, so every status value a record can hold is covered.
* `*metav1.Time` is `Option Time` (`none` is the nil pointer), and a clock
  reading `time.Now()` is an explicit argument of the function that reads it.
* `map[string]string` is an association list; no function here reads or
  writes the entries.
* A method with a pointer receiver returns the updated record; the goroutine
  started by `go metrics.RegisterCompletedInternalRequest(...)` is recorded as
  an emitted `MetricCall` next to the record.
* `Controller.Reconcile` of `controllers/internalrequest/controller.go` passes
  its state explicitly and takes the imported functions it calls as arguments.
  The adapter's steps and the handler that runs them are not among the
  sources; the pipeline section models them from the spec (§4.2, §4.4).
-/

namespace InternalServices

/-- A clock reading (`time.Time`), as a number of ticks. -/
abbrev Time := Nat

/-- The Go type `metav1.Condition`. `LastTransitionTime` is `none` for the zero
time (`IsZero()`); the field `Type` is named `CondType`. -/
structure Condition where
  CondType : String
  Status : String
  ObservedGeneration : Int
  LastTransitionTime : Option Time
  Reason : String
  Message : String
  deriving DecidableEq, Repr

/-- The constant `metav1.ConditionTrue`. -/
def ConditionTrue : String := "True"

/-- The constant `metav1.ConditionFalse`. -/
def ConditionFalse : String := "False"

/-- The constant `metav1.ConditionUnknown`. -/
def ConditionUnknown : String := "Unknown"

/-- Modelled from the spec: the constant `SucceededConditionType` (its
declaration is in a file of the package that is not part of the sources at
hand). The condition slot is the one of type "Succeeded", as in the
`printcolumn` markers of `internalrequest_types.go`. -/
def SucceededConditionType : String := "Succeeded"

/-- Modelled from the spec: the constant `RunningReason` (declaration not in
the sources at hand), the reason `Running` of the spec's reason enumeration. -/
def RunningReason : String := "Running"

/-- Modelled from the spec: the constant `SucceededReason` (declaration not in
the sources at hand), the reason `Succeeded` of the spec's reason enumeration. -/
def SucceededReason : String := "Succeeded"

/-- Modelled from the spec: the constant `FailedReason` (declaration not in
the sources at hand), the reason `Failed` of the spec's reason enumeration. -/
def FailedReason : String := "Failed"

/-- Modelled from the spec: the constant `RejectedReason` (declaration not in
the sources at hand), the reason `Rejected` of the spec's reason enumeration. -/
def RejectedReason : String := "Rejected"

/-- The Go type `InternalRequestSpec`. -/
structure InternalRequestSpec where
  Request : String
  Params : List (String × String)
  deriving DecidableEq, Repr

/-- The Go type `InternalRequestStatus`. -/
structure InternalRequestStatus where
  StartTime : Option Time
  CompletionTime : Option Time
  Conditions : List Condition
  Results : List (String × String)
  deriving DecidableEq, Repr

/-- The Go type `InternalRequest`; of the embedded `metav1.ObjectMeta` the two
fields that identify the record are kept (`Namespace` is the one the methods
read). -/
structure InternalRequest where
  Name : String
  Namespace : String
  Spec : InternalRequestSpec
  Status : InternalRequestStatus
  deriving DecidableEq, Repr

/-- The arguments of one call of `metrics.RegisterCompletedInternalRequest`. -/
structure MetricCall where
  request : String
  ns : String
  reason : String
  startTime : Option Time
  completionTime : Option Time
  succeeded : Bool
  deriving DecidableEq, Repr

/-- The result of a mutator: the record after the call and the completion
metrics the call emitted. -/
structure Outcome where
  ir : InternalRequest
  emitted : List MetricCall
  deriving DecidableEq, Repr

/-- Modelled from the spec: `meta.FindStatusCondition` of the imported
package `k8s.io/apimachinery/pkg/api/meta` (not part of the sources at hand):
the first condition of the given type, if any ("condition exists"). -/
def FindStatusCondition (conditions : List Condition) (conditionType : String) :
    Option Condition :=
  match conditions with
  | [] => none
  | c :: rest => if c.CondType = conditionType then some c else FindStatusCondition rest conditionType

/-- Modelled from the spec: `meta.IsStatusConditionTrue` of the imported
package `k8s.io/apimachinery/pkg/api/meta` (not part of the sources at hand):
the first condition of the given type exists and has status `True`. -/
def IsStatusConditionTrue (conditions : List Condition) (conditionType : String) : Bool :=
  match conditions with
  | [] => false
  | c :: rest =>
    if c.CondType = conditionType then decide (c.Status = ConditionTrue)
    else IsStatusConditionTrue rest conditionType

/-- The in-place update `meta.SetStatusCondition` performs on the condition it
found: the status (with the transition time) when the status differs, then
reason, message and observed generation. -/
def overwriteCondition (existing newCondition : Condition) (tnow : Time) : Condition :=
  let c1 : Condition :=
    if existing.Status ≠ newCondition.Status then
      { existing with
        Status := newCondition.Status
        LastTransitionTime :=
          match newCondition.LastTransitionTime with
          | some t => some t
          | none => some tnow }
    else existing
  { c1 with
    Reason := newCondition.Reason
    Message := newCondition.Message
    ObservedGeneration := newCondition.ObservedGeneration }

/-- Modelled from the spec: `meta.SetStatusCondition` of the imported package
`k8s.io/apimachinery/pkg/api/meta` (not part of the sources at hand): the
condition slot of the new condition's type is set to it. The first condition
of that type is overwritten where it stands; when there is none the new
condition is appended, stamped with the clock reading `tnow` when it carries
no transition time. -/
def SetStatusCondition (conditions : List Condition) (newCondition : Condition)
    (tnow : Time) : List Condition :=
  match conditions with
  | [] =>
    [match newCondition.LastTransitionTime with
     | some _ => newCondition
     | none => { newCondition with LastTransitionTime := some tnow }]
  | c :: rest =>
    if c.CondType = newCondition.CondType then overwriteCondition c newCondition tnow :: rest
    else c :: SetStatusCondition rest newCondition tnow

/-- Modelled from the spec: `conditions.SetConditionWithMessage` of the
imported package `operator-toolkit/conditions` (not part of the sources at
hand): sets the condition of the given type to the given status, reason and
message. -/
def SetConditionWithMessage (conditions : List Condition) (conditionType status reason
    message : String) (tnow : Time) : List Condition :=
  SetStatusCondition conditions
    { CondType := conditionType, Status := status, ObservedGeneration := 0,
      LastTransitionTime := none, Reason := reason, Message := message } tnow

/-- Modelled from the spec: `conditions.SetCondition` of the imported package
`operator-toolkit/conditions` (not part of the sources at hand): sets the
condition of the given type to the given status and reason, with an empty
message. -/
def SetCondition (conditions : List Condition) (conditionType status reason : String)
    (tnow : Time) : List Condition :=
  SetConditionWithMessage conditions conditionType status reason "" tnow

/-- The method `HasCompleted`: whether the InternalRequest has been completed. -/
def HasCompleted (ir : InternalRequest) : Bool :=
  match FindStatusCondition ir.Status.Conditions SucceededConditionType with
  | none => false
  | some condition =>
    if condition.Status = ConditionTrue then true
    else decide (condition.Status = ConditionFalse) && decide (condition.Reason ≠ RunningReason)

/-- The method `HasFailed`: whether the InternalRequest has failed. -/
def HasFailed (ir : InternalRequest) : Bool :=
  match FindStatusCondition ir.Status.Conditions SucceededConditionType with
  | none => false
  | some condition =>
    if condition.Status = ConditionTrue then false
    else decide (condition.Status = ConditionFalse) && decide (condition.Reason ≠ RunningReason)

/-- The method `HasSucceeded`: whether the InternalRequest has succeeded. -/
def HasSucceeded (ir : InternalRequest) : Bool :=
  IsStatusConditionTrue ir.Status.Conditions SucceededConditionType

/-- The method `IsRunning`. -/
def IsRunning (ir : InternalRequest) : Bool :=
  match FindStatusCondition ir.Status.Conditions SucceededConditionType with
  | none => false
  | some condition =>
    decide (condition.Status ≠ ConditionTrue) && decide (condition.Reason = RunningReason)

/-- The method `MarkFailed`: registers the completion time (`now`) and changes
the Succeeded condition to False with the provided message. -/
def MarkFailed (ir : InternalRequest) (message : String) (now tnow : Time) : Outcome :=
  if HasCompleted ir then { ir := ir, emitted := [] }
  else
    let ir1 : InternalRequest := { ir with Status := { ir.Status with CompletionTime := some now } }
    let ir2 : InternalRequest :=
      { ir1 with Status := { ir1.Status with
          Conditions := SetConditionWithMessage ir1.Status.Conditions SucceededConditionType
            ConditionFalse FailedReason message tnow } }
    { ir := ir2
      emitted := [{ request := ir2.Spec.Request, ns := ir2.Namespace,
                    reason := FailedReason, startTime := ir2.Status.StartTime,
                    completionTime := ir2.Status.CompletionTime, succeeded := false }] }

/-- The method `MarkRejected`: changes the Succeeded condition to False with
the Rejected reason and the provided message. -/
def MarkRejected (ir : InternalRequest) (message : String) (tnow : Time) : Outcome :=
  if HasCompleted ir then { ir := ir, emitted := [] }
  else
    { ir := { ir with Status := { ir.Status with
          Conditions := SetConditionWithMessage ir.Status.Conditions SucceededConditionType
            ConditionFalse RejectedReason message tnow } }
      emitted := [] }

/-- The method `MarkRunning`: registers the start time (`now`) unless the
record is running already, and sets the Succeeded condition to status False
with the Running reason. -/
def MarkRunning (ir : InternalRequest) (now tnow : Time) : Outcome :=
  if HasCompleted ir then { ir := ir, emitted := [] }
  else
    let ir1 : InternalRequest :=
      if !IsRunning ir then { ir with Status := { ir.Status with StartTime := some now } }
      else ir
    { ir := { ir1 with Status := { ir1.Status with
          Conditions := SetCondition ir1.Status.Conditions SucceededConditionType
            ConditionFalse RunningReason tnow } }
      emitted := [] }

/-- The method `MarkSucceeded`: registers the completion time (`now`) and
changes the Succeeded condition to True. -/
def MarkSucceeded (ir : InternalRequest) (now tnow : Time) : Outcome :=
  if HasCompleted ir then { ir := ir, emitted := [] }
  else
    let ir1 : InternalRequest := { ir with Status := { ir.Status with CompletionTime := some now } }
    let ir2 : InternalRequest :=
      { ir1 with Status := { ir1.Status with
          Conditions := SetCondition ir1.Status.Conditions SucceededConditionType
            ConditionTrue SucceededReason tnow } }
    { ir := ir2
      emitted := [{ request := ir2.Spec.Request, ns := ir2.Namespace,
                    reason := SucceededReason, startTime := ir2.Status.StartTime,
                    completionTime := ir2.Status.CompletionTime, succeeded := true }] }

/-- One mutator call together with its arguments and the clock readings it
may take. -/
inductive Call where
  | markRunning (now tnow : Time)
  | markSucceeded (now tnow : Time)
  | markFailed (message : String) (now tnow : Time)
  | markRejected (message : String) (tnow : Time)
  deriving DecidableEq, Repr

/-- The record after one mutator call. -/
def applyCall (ir : InternalRequest) : Call → InternalRequest
  | .markRunning now tnow => (MarkRunning ir now tnow).ir
  | .markSucceeded now tnow => (MarkSucceeded ir now tnow).ir
  | .markFailed message now tnow => (MarkFailed ir message now tnow).ir
  | .markRejected message tnow => (MarkRejected ir message tnow).ir

/-- The record after a finite sequence of mutator calls, first call first. -/
def applyCalls (ir : InternalRequest) (calls : List Call) : InternalRequest :=
  calls.foldl applyCall ir

/-- A fresh record: no Succeeded condition, no start time, no completion
time. -/
def isFresh (ir : InternalRequest) : Prop :=
  FindStatusCondition ir.Status.Conditions SucceededConditionType = none ∧
  ir.Status.StartTime = none ∧ ir.Status.CompletionTime = none

instance (ir : InternalRequest) : Decidable (isFresh ir) := by
  unfold isFresh; infer_instance

/-- A record with an empty status, requesting `request` in namespace `ns`. -/
def newRequest (name ns request : String) : InternalRequest :=
  { Name := name, Namespace := ns, Spec := { Request := request, Params := [] },
    Status := { StartTime := none, CompletionTime := none, Conditions := [], Results := [] } }

/-- A record whose Succeeded condition has status Unknown and reason Failed. -/
def unknownFailedRequest : InternalRequest :=
  { Name := "r", Namespace := "ns", Spec := { Request := "deploy-x", Params := [] },
    Status :=
      { StartTime := none, CompletionTime := none, Results := []
        Conditions := [{ CondType := SucceededConditionType, Status := ConditionUnknown,
                         ObservedGeneration := 0, LastTransitionTime := some 1,
                         Reason := FailedReason, Message := "" }] } }

/-- A record that has succeeded: started at 1, completed at 2. -/
def succeededRequest : InternalRequest :=
  (applyCalls (newRequest "r" "ns" "deploy-x") [.markRunning 1 1, .markSucceeded 2 2])

/-- The shapes a record takes along the mutators: no Succeeded condition and
no timestamps; Running with a start time and no completion time; Succeeded or
Failed with a completion time; Rejected without a completion time. -/
def lifecycleInvariant (s : InternalRequest) : Prop :=
  match FindStatusCondition s.Status.Conditions SucceededConditionType with
  | none => s.Status.StartTime = none ∧ s.Status.CompletionTime = none
  | some c =>
    (c.Status = ConditionFalse ∧ c.Reason = RunningReason ∧
      s.Status.StartTime ≠ none ∧ s.Status.CompletionTime = none) ∨
    (c.Status = ConditionTrue ∧ c.Reason = SucceededReason ∧
      s.Status.CompletionTime ≠ none) ∨
    (c.Status = ConditionFalse ∧ c.Reason = FailedReason ∧
      s.Status.CompletionTime ≠ none) ∨
    (c.Status = ConditionFalse ∧ c.Reason = RejectedReason ∧
      s.Status.CompletionTime = none)

/-! ## The controller -/

/-- The Go type `ctrl.Result`. -/
structure Result where
  Requeue : Bool
  RequeueAfter : Nat
  deriving DecidableEq, Repr

/-- The empty result `ctrl.Result{}`. -/
def emptyResult : Result := { Requeue := false, RequeueAfter := 0 }

/-- The Go type `types.NamespacedName`, the key of a reconcile request. -/
structure NamespacedName where
  Namespace : String
  Name : String
  deriving DecidableEq, Repr

/-- The methods of the adapter that `Reconcile` passes on as operations, each
bound to the adapter that `newAdapter` built. -/
inductive Operation where
  | EnsureRequestINotCompleted
  | EnsureConfigIsLoaded
  | EnsureRequestIsAllowed
  | EnsurePipelineExists
  | EnsurePipelineRunIsCreated
  | EnsureStatusIsTracked
  | EnsurePipelineRunIsDeleted
  deriving DecidableEq, Repr

/-- The method `Controller.Reconcile`. The state `σ` is everything the call
can read or change (the cluster, the adapter); `ε` is the Go type `error`.
The imported functions are arguments: `IsNotFound` is `errors.IsNotFound`,
`Get` is `c.client.Get`, `newAdapter` stores the fetched record in a new
adapter, and `ReconcileHandler` is `controller.ReconcileHandler`, the only
place where operations run. -/
def Reconcile {ε σ : Type} (IsNotFound : ε → Bool)
    (Get : NamespacedName → σ → Except ε InternalRequest)
    (newAdapter : InternalRequest → σ → σ)
    (ReconcileHandler : List Operation → σ → (Result × Option ε) × σ)
    (req : NamespacedName) (s : σ) : (Result × Option ε) × σ :=
  match Get req s with
  | .error err =>
    if IsNotFound err then ((emptyResult, none), s)
    else ((emptyResult, some err), s)
  | .ok internalRequest =>
    ReconcileHandler
      [ .EnsureRequestINotCompleted,
        .EnsureConfigIsLoaded,
        .EnsureRequestIsAllowed,
        .EnsurePipelineExists,
        .EnsurePipelineRunIsCreated,
        .EnsureStatusIsTracked,
        .EnsurePipelineRunIsDeleted ]
      (newAdapter internalRequest s)

/-- A client that knows one record, named `r` in namespace `ns`; a request
for the name `broken` fails with an error other than not-found. -/
def sampleGet (req : NamespacedName) (_s : List Operation) : Except String InternalRequest :=
  if req.Name = "r" ∧ req.Namespace = "ns" then .ok (newRequest "r" "ns" "deploy-x")
  else if req.Name = "broken" then .error "connection refused"
  else .error "NotFound"

/-- A handler that runs every operation it is given and records it in the
state. -/
def recordingHandler (ops : List Operation) (s : List Operation) :
    (Result × Option String) × List Operation :=
  ((emptyResult, none), s ++ ops)

/-! ## The reconciliation pipeline of the spec -/

/-- Modelled from the spec: the directive a step of the reconciliation
pipeline returns (§4.2); the type is declared in the imported operator
toolkit, not in the sources at hand. -/
inductive Directive where
  | continueProcessing
  | stopAndRequeue
  | stop
  | error
  deriving DecidableEq, Repr

/-- Modelled from the spec: what the Job Correlator's `observe` reports for a
job (§4.4); the correlator is not in the sources at hand. -/
inductive Observation where
  | notStarted
  | running
  | succeeded (results : List (String × String))
  | failed (details : String)
  deriving DecidableEq, Repr

/-- Modelled from the spec: the answers of the external collaborators of §6
during one reconciliation invocation (config loader, authorization gate, job
template lookup, job execution backend, retention condition) and the clock
readings of the invocation. `denied = some reason` is `Denied(reason)`. -/
structure Collaborators where
  configLoads : Bool
  denied : Option String
  templateFound : Bool
  createFails : Bool
  observed : Observation
  retentionSatisfied : Bool
  now : Time
  tnow : Time
  deriving DecidableEq, Repr

/-- Modelled from the spec: the name of the job associated with a record,
"derived deterministically from the record's identity" (§3, §4.4); the
derivation is not in the sources at hand. -/
def jobName (ir : InternalRequest) : String :=
  ir.Namespace ++ "/" ++ ir.Name

/-- Modelled from the spec: the state a reconciliation invocation works on:
the record with its persisted status, the names of the jobs that exist, and
the number of jobs created so far. -/
structure Cluster where
  record : InternalRequest
  jobs : List String
  created : Nat
  deriving DecidableEq, Repr

/-- Modelled from the spec: the seven steps of §4.2, the methods of the
adapter, which is not in the sources at hand. Step 5 finds the job by its
derived name and creates it only when it is absent; a job that has not
started is waited for like a running one in step 6. -/
def runOperation (env : Collaborators) : Operation → Cluster → Directive × Cluster
  | .EnsureRequestINotCompleted, w =>
    if HasCompleted w.record then (.stop, w) else (.continueProcessing, w)
  | .EnsureConfigIsLoaded, w =>
    if env.configLoads then (.continueProcessing, w) else (.stopAndRequeue, w)
  | .EnsureRequestIsAllowed, w =>
    match env.denied with
    | some reason => (.stop, { w with record := (MarkRejected w.record reason env.tnow).ir })
    | none => (.continueProcessing, w)
  | .EnsurePipelineExists, w =>
    if env.templateFound then (.continueProcessing, w)
    else (.stop, { w with record :=
      (MarkFailed w.record "job template not found" env.now env.tnow).ir })
  | .EnsurePipelineRunIsCreated, w =>
    if jobName w.record ∈ w.jobs then
      (.continueProcessing, { w with record := (MarkRunning w.record env.now env.tnow).ir })
    else if env.createFails then (.stopAndRequeue, w)
    else
      (.continueProcessing,
        { record := (MarkRunning w.record env.now env.tnow).ir
          jobs := jobName w.record :: w.jobs
          created := w.created + 1 })
  | .EnsureStatusIsTracked, w =>
    match env.observed with
    | .notStarted => (.stop, w)
    | .running => (.stop, w)
    | .succeeded results =>
      (.continueProcessing, { w with record :=
        (MarkSucceeded { w.record with Status := { w.record.Status with Results := results } }
          env.now env.tnow).ir })
    | .failed details =>
      (.continueProcessing, { w with record :=
        (MarkFailed w.record details env.now env.tnow).ir })
  | .EnsurePipelineRunIsDeleted, w =>
    if (HasSucceeded w.record || HasFailed w.record) && env.retentionSatisfied then
      (.stop, { w with jobs := w.jobs.filter (fun n => n ≠ jobName w.record) })
    else (.stop, w)

/-- Modelled from the spec: `controller.ReconcileHandler` of the imported
operator toolkit (not in the sources at hand), as §4.2 describes it: the
steps run in the order given, and the first step that does not return
`continue` halts the remaining ones and decides the result. -/
def ReconcileHandler (env : Collaborators) :
    List Operation → Cluster → (Result × Option String) × Cluster
  | [], w => ((emptyResult, none), w)
  | op :: rest, w =>
    match runOperation env op w with
    | (.continueProcessing, w1) => ReconcileHandler env rest w1
    | (.stop, w1) => ((emptyResult, none), w1)
    | (.stopAndRequeue, w1) => (({ Requeue := true, RequeueAfter := 0 }, none), w1)
    | (.error, w1) => (({ Requeue := true, RequeueAfter := 0 }, some "error"), w1)

/-- One reconciliation invocation for the record of the cluster: `Reconcile`
with the record found and the handler and steps of the spec. -/
def reconcileOnce (env : Collaborators) (w : Cluster) : Cluster :=
  (Reconcile (fun _ => false) (fun _ w1 => .ok w1.record)
    (fun ir w1 => { w1 with record := ir }) (ReconcileHandler env)
    ⟨w.record.Namespace, w.record.Name⟩ w).2

/-- The cluster after the reconciliation invocations `envs`, first one
first. -/
def reconcileMany (envs : List Collaborators) (w : Cluster) : Cluster :=
  envs.foldl (fun w1 env => reconcileOnce env w1) w

/-- No job has been created and none exists for the record. -/
def noJobYet (w : Cluster) : Prop :=
  w.created = 0 ∧ jobName w.record ∉ w.jobs

/-- One job has been created, and it exists unless the record has completed. -/
def oneJobCreated (w : Cluster) : Prop :=
  w.created = 1 ∧ (jobName w.record ∈ w.jobs ∨ HasCompleted w.record = true)

instance (w : Cluster) : Decidable (noJobYet w) := by
  unfold noJobYet; infer_instance

instance (w : Cluster) : Decidable (oneJobCreated w) := by
  unfold oneJobCreated; infer_instance

/-- The invocation with the collaborators `env` on the cluster `w` gets as far
as creating the job: the record has not completed, the configuration loads,
the request is allowed, the job template is found, and the creation does not
fail. -/
def reachesCreation (env : Collaborators) (w : Cluster) : Prop :=
  HasCompleted w.record = false ∧ env.configLoads = true ∧ env.denied = none ∧
  env.templateFound = true ∧ env.createFails = false

instance (env : Collaborators) (w : Cluster) : Decidable (reachesCreation env w) := by
  unfold reachesCreation; infer_instance

/-- A cluster with a new record and no job. -/
def newCluster : Cluster :=
  { record := newRequest "r" "ns" "deploy-x", jobs := [], created := 0 }

/-- An invocation in which every collaborator answers favourably and the job
is observed running. -/
def favourable : Collaborators :=
  { configLoads := true, denied := none, templateFound := true, createFails := false,
    observed := .running, retentionSatisfied := true, now := 1, tnow := 1 }

/-- An invocation in which the authorization gate denies the request, as in
scenario A of the spec. -/
def denying : Collaborators :=
  { favourable with denied := some "unauthorized namespace" }

/-- An invocation in which the configuration fails to load. -/
def configFailing : Collaborators :=
  { favourable with configLoads := false }

/-- An invocation in which the creation of the job fails. -/
def createFailing : Collaborators :=
  { favourable with createFails := true }

/-- A later invocation in which the job is observed succeeded. -/
def finishing : Collaborators :=
  { favourable with observed := .succeeded [("digest", "sha256:abc")], now := 9, tnow := 9 }

/-! ## The condition slot -/

theorem isStatusConditionTrue_eq (cs : List Condition) (t : String) :
    IsStatusConditionTrue cs t =
      match FindStatusCondition cs t with
      | none => false
      | some c => decide (c.Status = ConditionTrue) := by
  induction cs with
  | nil => rfl
  | cons c rest ih =>
    unfold IsStatusConditionTrue FindStatusCondition
    by_cases h : c.CondType = t
    · simp [h]
    · simp [h, ih]

theorem find_overwriteCondition_fields (c nc : Condition) (tnow : Time) :
    (overwriteCondition c nc tnow).CondType = c.CondType ∧
    (overwriteCondition c nc tnow).Status = nc.Status ∧
    (overwriteCondition c nc tnow).Reason = nc.Reason ∧
    (overwriteCondition c nc tnow).Message = nc.Message := by
  unfold overwriteCondition
  by_cases h : c.Status = nc.Status
  · simp [h]
  · simp [h]

/-- After `SetStatusCondition` the slot of the new condition's type holds a
condition with the new status, reason and message. -/
theorem find_setStatusCondition (cs : List Condition) (nc : Condition) (tnow : Time) :
    ∃ c, FindStatusCondition (SetStatusCondition cs nc tnow) nc.CondType = some c ∧
      c.Status = nc.Status ∧ c.Reason = nc.Reason ∧ c.Message = nc.Message := by
  induction cs with
  | nil =>
    unfold SetStatusCondition
    cases hl : nc.LastTransitionTime <;> simp [FindStatusCondition]
  | cons c rest ih =>
    unfold SetStatusCondition
    by_cases h : c.CondType = nc.CondType
    · obtain ⟨h1, h2, h3, h4⟩ := find_overwriteCondition_fields c nc tnow
      simp only [h, if_true]
      refine ⟨overwriteCondition c nc tnow, ?_, h2, h3, h4⟩
      unfold FindStatusCondition
      simp [h1, h]
    · simp only [h, if_false]
      unfold FindStatusCondition
      simp only [h, if_false]
      exact ih

/-- The slot after `SetConditionWithMessage`. -/
theorem find_setConditionWithMessage (cs : List Condition) (t status reason message : String)
    (tnow : Time) :
    ∃ c, FindStatusCondition (SetConditionWithMessage cs t status reason message tnow) t = some c ∧
      c.Status = status ∧ c.Reason = reason ∧ c.Message = message :=
  find_setStatusCondition cs
    { CondType := t, Status := status, ObservedGeneration := 0,
      LastTransitionTime := none, Reason := reason, Message := message } tnow

/-! ## The mutators on a completed record -/

theorem markRunning_of_completed (ir : InternalRequest) (h : HasCompleted ir = true)
    (now tnow : Time) : MarkRunning ir now tnow = { ir := ir, emitted := [] } := by
  simp [MarkRunning, h]

theorem markSucceeded_of_completed (ir : InternalRequest) (h : HasCompleted ir = true)
    (now tnow : Time) : MarkSucceeded ir now tnow = { ir := ir, emitted := [] } := by
  simp [MarkSucceeded, h]

theorem markFailed_of_completed (ir : InternalRequest) (h : HasCompleted ir = true)
    (m : String) (now tnow : Time) : MarkFailed ir m now tnow = { ir := ir, emitted := [] } := by
  simp [MarkFailed, h]

theorem markRejected_of_completed (ir : InternalRequest) (h : HasCompleted ir = true)
    (m : String) (tnow : Time) : MarkRejected ir m tnow = { ir := ir, emitted := [] } := by
  simp [MarkRejected, h]

theorem applyCall_of_completed (ir : InternalRequest) (h : HasCompleted ir = true) (c : Call) :
    applyCall ir c = ir := by
  cases c with
  | markRunning now tnow => simp [applyCall, markRunning_of_completed ir h]
  | markSucceeded now tnow => simp [applyCall, markSucceeded_of_completed ir h]
  | markFailed m now tnow => simp [applyCall, markFailed_of_completed ir h]
  | markRejected m tnow => simp [applyCall, markRejected_of_completed ir h]

theorem applyCalls_of_completed (ir : InternalRequest) (h : HasCompleted ir = true)
    (calls : List Call) : applyCalls ir calls = ir := by
  induction calls with
  | nil => rfl
  | cons c rest ih =>
    unfold applyCalls at ih ⊢
    rw [List.foldl_cons, applyCall_of_completed ir h c]
    exact ih

theorem applyCalls_append (ir : InternalRequest) (pre post : List Call) :
    applyCalls ir (pre ++ post) = applyCalls (applyCalls ir pre) post := by
  simp [applyCalls, List.foldl_append]

/-- C1. Monotonicity of the terminal state: on a record on which
`HasCompleted` is true, each of `MarkRunning`, `MarkSucceeded`, `MarkFailed`
and `MarkRejected` (any message, any clock readings) returns the record as it
was, so the conditions, the start time, the completion time and the results
are unchanged; hence along any sequence of mutator calls from any record,
once `HasCompleted` is true after a prefix, the calls that follow change
none of these fields. -/
theorem terminal_state_is_immutable (ir : InternalRequest) (h : HasCompleted ir = true) :
    (∀ now tnow, (MarkRunning ir now tnow).ir = ir) ∧
    (∀ now tnow, (MarkSucceeded ir now tnow).ir = ir) ∧
    (∀ m now tnow, (MarkFailed ir m now tnow).ir = ir) ∧
    (∀ m tnow, (MarkRejected ir m tnow).ir = ir) ∧
    (∀ calls : List Call,
      (applyCalls ir calls).Status.Conditions = ir.Status.Conditions ∧
      (applyCalls ir calls).Status.StartTime = ir.Status.StartTime ∧
      (applyCalls ir calls).Status.CompletionTime = ir.Status.CompletionTime ∧
      (applyCalls ir calls).Status.Results = ir.Status.Results) ∧
    (∀ (ir0 : InternalRequest) (pre post : List Call), applyCalls ir0 pre = ir →
      applyCalls ir0 (pre ++ post) = applyCalls ir0 pre) := by
  refine ⟨?_, ?_, ?_, ?_, ?_, ?_⟩
  · intro now tnow; rw [markRunning_of_completed ir h]
  · intro now tnow; rw [markSucceeded_of_completed ir h]
  · intro m now tnow; rw [markFailed_of_completed ir h]
  · intro m tnow; rw [markRejected_of_completed ir h]
  · intro calls; rw [applyCalls_of_completed ir h]; exact ⟨rfl, rfl, rfl, rfl⟩
  · intro ir0 pre post hpre
    rw [applyCalls_append, hpre, applyCalls_of_completed ir h]

/-- Witness for C1: the succeeded record (started at 1, completed at 2) has
completed and no mutator changes it. -/
theorem terminal_state_is_immutable_witness :
    HasCompleted succeededRequest = true ∧
    (∀ now tnow, (MarkRunning succeededRequest now tnow).ir = succeededRequest) ∧
    (∀ m now tnow, (MarkFailed succeededRequest m now tnow).ir = succeededRequest) :=
  ⟨by decide, (terminal_state_is_immutable succeededRequest (by decide)).1,
    (terminal_state_is_immutable succeededRequest (by decide)).2.2.1⟩

/-- C2. `HasCompleted` is true exactly when the Succeeded condition exists and
either its status is True, or its status is False and its reason is not
Running. -/
theorem hasCompleted_iff (ir : InternalRequest) :
    HasCompleted ir = true ↔
      ∃ c, FindStatusCondition ir.Status.Conditions SucceededConditionType = some c ∧
        (c.Status = ConditionTrue ∨
          (c.Status = ConditionFalse ∧ c.Reason ≠ RunningReason)) := by
  unfold HasCompleted
  cases hf : FindStatusCondition ir.Status.Conditions SucceededConditionType with
  | none => simp
  | some c =>
    by_cases hs : c.Status = ConditionTrue
    · simp [hs]
    · simp [hs]

/-- C3, as stated, fails: the record whose Succeeded condition has status
Unknown and reason Failed has a condition, a status other than True and a
reason other than Running, and `HasFailed` is false on it. -/
theorem hasFailed_unknown_status_counterexample :
    ¬ (HasFailed unknownFailedRequest = true ↔
      ∃ c, FindStatusCondition unknownFailedRequest.Status.Conditions SucceededConditionType
          = some c ∧ c.Status ≠ ConditionTrue ∧ c.Reason ≠ RunningReason) := by
  decide

/-- C3, amended. `HasFailed` is true exactly when the Succeeded condition
exists, its status is False, and its reason is not Running. -/
theorem hasFailed_iff (ir : InternalRequest) :
    HasFailed ir = true ↔
      ∃ c, FindStatusCondition ir.Status.Conditions SucceededConditionType = some c ∧
        c.Status = ConditionFalse ∧ c.Reason ≠ RunningReason := by
  unfold HasFailed
  cases hf : FindStatusCondition ir.Status.Conditions SucceededConditionType with
  | none => simp
  | some c =>
    by_cases hs : c.Status = ConditionTrue
    · have hne : ConditionTrue ≠ ConditionFalse := by decide
      simp [hs, hne]
    · simp [hs]

/-- C4. `IsRunning` is true exactly when the Succeeded condition exists, its
status is not True, and its reason is Running. -/
theorem isRunning_iff (ir : InternalRequest) :
    IsRunning ir = true ↔
      ∃ c, FindStatusCondition ir.Status.Conditions SucceededConditionType = some c ∧
        c.Status ≠ ConditionTrue ∧ c.Reason = RunningReason := by
  unfold IsRunning
  cases hf : FindStatusCondition ir.Status.Conditions SucceededConditionType with
  | none => simp
  | some c => simp

/-! ## The mutators on a record that has not completed -/

theorem markRunning_conditions (ir : InternalRequest) (h : HasCompleted ir = false)
    (now tnow : Time) :
    (MarkRunning ir now tnow).ir.Status.Conditions =
      SetConditionWithMessage ir.Status.Conditions SucceededConditionType ConditionFalse
        RunningReason "" tnow := by
  unfold MarkRunning SetCondition
  cases hr : IsRunning ir <;> simp [h]

theorem markSucceeded_conditions (ir : InternalRequest) (h : HasCompleted ir = false)
    (now tnow : Time) :
    (MarkSucceeded ir now tnow).ir.Status.Conditions =
      SetConditionWithMessage ir.Status.Conditions SucceededConditionType ConditionTrue
        SucceededReason "" tnow := by
  simp [MarkSucceeded, SetCondition, h]

theorem markFailed_conditions (ir : InternalRequest) (h : HasCompleted ir = false)
    (m : String) (now tnow : Time) :
    (MarkFailed ir m now tnow).ir.Status.Conditions =
      SetConditionWithMessage ir.Status.Conditions SucceededConditionType ConditionFalse
        FailedReason m tnow := by
  simp [MarkFailed, h]

theorem markRejected_conditions (ir : InternalRequest) (h : HasCompleted ir = false)
    (m : String) (tnow : Time) :
    (MarkRejected ir m tnow).ir.Status.Conditions =
      SetConditionWithMessage ir.Status.Conditions SucceededConditionType ConditionFalse
        RejectedReason m tnow := by
  simp [MarkRejected, h]

/-- C5. On a record on which `HasCompleted` is false, `MarkRunning` leaves the
Succeeded condition with status False and reason Running, so that afterwards
`IsRunning` is true and `HasCompleted` is still false; if `IsRunning` was
false before the call, the start time is the clock reading of the call; the
completion time and the results are unchanged. -/
theorem markRunning_of_not_completed (ir : InternalRequest) (h : HasCompleted ir = false)
    (now tnow : Time) :
    (∃ c, FindStatusCondition (MarkRunning ir now tnow).ir.Status.Conditions
          SucceededConditionType = some c ∧
        c.Status = ConditionFalse ∧ c.Reason = RunningReason) ∧
    IsRunning (MarkRunning ir now tnow).ir = true ∧
    HasCompleted (MarkRunning ir now tnow).ir = false ∧
    (IsRunning ir = false → (MarkRunning ir now tnow).ir.Status.StartTime = some now) ∧
    (MarkRunning ir now tnow).ir.Status.CompletionTime = ir.Status.CompletionTime ∧
    (MarkRunning ir now tnow).ir.Status.Results = ir.Status.Results := by
  obtain ⟨c, hc, hst, hre, _⟩ := find_setConditionWithMessage ir.Status.Conditions
    SucceededConditionType ConditionFalse RunningReason "" tnow
  rw [← markRunning_conditions ir h now tnow] at hc
  have hne : ConditionFalse ≠ ConditionTrue := by decide
  refine ⟨⟨c, hc, hst, hre⟩, ?_, ?_, ?_, ?_, ?_⟩
  · unfold IsRunning; rw [hc]; simp [hst, hre, hne]
  · unfold HasCompleted; rw [hc]; simp [hst, hre, hne]
  · intro hr; simp [MarkRunning, h, hr]
  · unfold MarkRunning; cases hr : IsRunning ir <;> simp [h]
  · unfold MarkRunning; cases hr : IsRunning ir <;> simp [h]

/-- Witness for C5: a new record, marked running at clock reading 5. -/
theorem markRunning_of_not_completed_witness :
    HasCompleted (newRequest "r" "ns" "deploy-x") = false ∧
    IsRunning (MarkRunning (newRequest "r" "ns" "deploy-x") 5 6).ir = true ∧
    HasCompleted (MarkRunning (newRequest "r" "ns" "deploy-x") 5 6).ir = false :=
  ⟨by decide,
    (markRunning_of_not_completed (newRequest "r" "ns" "deploy-x") (by decide) 5 6).2.1,
    (markRunning_of_not_completed (newRequest "r" "ns" "deploy-x") (by decide) 5 6).2.2.1⟩

/-- C6, evaluated on a new record: `MarkRunning` registers the start time and
leaves the Succeeded condition with status False, which is not the status
Unknown its doc comment announces. -/
theorem markRunning_sets_status_false_not_unknown :
    HasCompleted (newRequest "r" "ns" "deploy-x") = false ∧
    (MarkRunning (newRequest "r" "ns" "deploy-x") 5 6).ir.Status.StartTime = some 5 ∧
    (FindStatusCondition (MarkRunning (newRequest "r" "ns" "deploy-x") 5 6).ir.Status.Conditions
      SucceededConditionType).map (fun c => c.Status) = some ConditionFalse ∧
    (FindStatusCondition (MarkRunning (newRequest "r" "ns" "deploy-x") 5 6).ir.Status.Conditions
      SucceededConditionType).map (fun c => c.Status) ≠ some ConditionUnknown := by
  decide

/-- C7. On a record on which `HasCompleted` is false, `MarkSucceeded` sets the
completion time to the clock reading of the call and the Succeeded condition
to status True with reason Succeeded, so that afterwards `HasSucceeded` and
`HasCompleted` are true and `HasFailed` and `IsRunning` are false; the start
time and the results are unchanged. -/
theorem markSucceeded_of_not_completed (ir : InternalRequest) (h : HasCompleted ir = false)
    (now tnow : Time) :
    (MarkSucceeded ir now tnow).ir.Status.CompletionTime = some now ∧
    (∃ c, FindStatusCondition (MarkSucceeded ir now tnow).ir.Status.Conditions
          SucceededConditionType = some c ∧
        c.Status = ConditionTrue ∧ c.Reason = SucceededReason) ∧
    HasSucceeded (MarkSucceeded ir now tnow).ir = true ∧
    HasCompleted (MarkSucceeded ir now tnow).ir = true ∧
    HasFailed (MarkSucceeded ir now tnow).ir = false ∧
    IsRunning (MarkSucceeded ir now tnow).ir = false ∧
    (MarkSucceeded ir now tnow).ir.Status.StartTime = ir.Status.StartTime ∧
    (MarkSucceeded ir now tnow).ir.Status.Results = ir.Status.Results := by
  obtain ⟨c, hc, hst, hre, _⟩ := find_setConditionWithMessage ir.Status.Conditions
    SucceededConditionType ConditionTrue SucceededReason "" tnow
  rw [← markSucceeded_conditions ir h now tnow] at hc
  refine ⟨?_, ⟨c, hc, hst, hre⟩, ?_, ?_, ?_, ?_, ?_, ?_⟩
  · simp [MarkSucceeded, h]
  · unfold HasSucceeded; rw [isStatusConditionTrue_eq, hc]; simp [hst]
  · unfold HasCompleted; rw [hc]; simp [hst]
  · unfold HasFailed; rw [hc]; simp [hst]
  · unfold IsRunning; rw [hc]; simp [hst]
  · simp [MarkSucceeded, h]
  · simp [MarkSucceeded, h]

/-- Witness for C7: a running record (started at 1), marked succeeded at 7. -/
theorem markSucceeded_of_not_completed_witness :
    HasCompleted (MarkRunning (newRequest "r" "ns" "deploy-x") 1 1).ir = false ∧
    (MarkSucceeded (MarkRunning (newRequest "r" "ns" "deploy-x") 1 1).ir 7 8).ir.Status.CompletionTime
      = some 7 :=
  ⟨by decide,
    (markSucceeded_of_not_completed (MarkRunning (newRequest "r" "ns" "deploy-x") 1 1).ir
      (by decide) 7 8).1⟩

/-- C8. On a record on which `HasCompleted` is false, `MarkFailed m` sets the
completion time to the clock reading of the call and the Succeeded condition
to status False, reason Failed, message `m`, so that afterwards `HasFailed`
and `HasCompleted` are true and `HasSucceeded` and `IsRunning` are false; the
start time and the results are unchanged. -/
theorem markFailed_of_not_completed (ir : InternalRequest) (h : HasCompleted ir = false)
    (m : String) (now tnow : Time) :
    (MarkFailed ir m now tnow).ir.Status.CompletionTime = some now ∧
    (∃ c, FindStatusCondition (MarkFailed ir m now tnow).ir.Status.Conditions
          SucceededConditionType = some c ∧
        c.Status = ConditionFalse ∧ c.Reason = FailedReason ∧ c.Message = m) ∧
    HasFailed (MarkFailed ir m now tnow).ir = true ∧
    HasCompleted (MarkFailed ir m now tnow).ir = true ∧
    HasSucceeded (MarkFailed ir m now tnow).ir = false ∧
    IsRunning (MarkFailed ir m now tnow).ir = false ∧
    (MarkFailed ir m now tnow).ir.Status.StartTime = ir.Status.StartTime ∧
    (MarkFailed ir m now tnow).ir.Status.Results = ir.Status.Results := by
  obtain ⟨c, hc, hst, hre, hm⟩ := find_setConditionWithMessage ir.Status.Conditions
    SucceededConditionType ConditionFalse FailedReason m tnow
  rw [← markFailed_conditions ir h m now tnow] at hc
  have hne : ConditionFalse ≠ ConditionTrue := by decide
  have hfr : FailedReason ≠ RunningReason := by decide
  refine ⟨?_, ⟨c, hc, hst, hre, hm⟩, ?_, ?_, ?_, ?_, ?_, ?_⟩
  · simp [MarkFailed, h]
  · unfold HasFailed; rw [hc]; simp [hst, hre, hne, hfr]
  · unfold HasCompleted; rw [hc]; simp [hst, hre, hne, hfr]
  · unfold HasSucceeded; rw [isStatusConditionTrue_eq, hc]; simp [hst, hne]
  · unfold IsRunning; rw [hc]; simp [hst, hre, hne, hfr]
  · simp [MarkFailed, h]
  · simp [MarkFailed, h]

/-- Witness for C8: a running record (started at 1), marked failed at 7. -/
theorem markFailed_of_not_completed_witness :
    HasCompleted (MarkRunning (newRequest "r" "ns" "deploy-x") 1 1).ir = false ∧
    (MarkFailed (MarkRunning (newRequest "r" "ns" "deploy-x") 1 1).ir "boom" 7 8).ir.Status.CompletionTime
      = some 7 ∧
    HasFailed (MarkFailed (MarkRunning (newRequest "r" "ns" "deploy-x") 1 1).ir "boom" 7 8).ir = true :=
  ⟨by decide,
    (markFailed_of_not_completed (MarkRunning (newRequest "r" "ns" "deploy-x") 1 1).ir
      (by decide) "boom" 7 8).1,
    (markFailed_of_not_completed (MarkRunning (newRequest "r" "ns" "deploy-x") 1 1).ir
      (by decide) "boom" 7 8).2.2.1⟩

/-- C9. `MarkRejected m` leaves the start time and the completion time
unchanged on every record; when `HasCompleted` was false it sets the Succeeded
condition to status False, reason Rejected, message `m`, so that afterwards
`HasCompleted` and `HasFailed` are true. In particular a fresh record that is
rejected has neither a start time nor a completion time. -/
theorem markRejected_frame (ir : InternalRequest) (m : String) (tnow : Time) :
    (MarkRejected ir m tnow).ir.Status.StartTime = ir.Status.StartTime ∧
    (MarkRejected ir m tnow).ir.Status.CompletionTime = ir.Status.CompletionTime ∧
    (HasCompleted ir = false →
      (∃ c, FindStatusCondition (MarkRejected ir m tnow).ir.Status.Conditions
            SucceededConditionType = some c ∧
          c.Status = ConditionFalse ∧ c.Reason = RejectedReason ∧ c.Message = m) ∧
      HasCompleted (MarkRejected ir m tnow).ir = true ∧
      HasFailed (MarkRejected ir m tnow).ir = true) ∧
    (isFresh ir →
      (∃ c, FindStatusCondition (MarkRejected ir m tnow).ir.Status.Conditions
            SucceededConditionType = some c ∧ c.Reason = RejectedReason) ∧
      (MarkRejected ir m tnow).ir.Status.StartTime = none ∧
      (MarkRejected ir m tnow).ir.Status.CompletionTime = none) := by
  have hstart : (MarkRejected ir m tnow).ir.Status.StartTime = ir.Status.StartTime := by
    unfold MarkRejected; cases hcomp : HasCompleted ir <;> simp
  have hcompl : (MarkRejected ir m tnow).ir.Status.CompletionTime = ir.Status.CompletionTime := by
    unfold MarkRejected; cases hcomp : HasCompleted ir <;> simp
  have hmain : HasCompleted ir = false →
      (∃ c, FindStatusCondition (MarkRejected ir m tnow).ir.Status.Conditions
            SucceededConditionType = some c ∧
          c.Status = ConditionFalse ∧ c.Reason = RejectedReason ∧ c.Message = m) ∧
      HasCompleted (MarkRejected ir m tnow).ir = true ∧
      HasFailed (MarkRejected ir m tnow).ir = true := by
    intro h
    obtain ⟨c, hc, hst, hre, hm⟩ := find_setConditionWithMessage ir.Status.Conditions
      SucceededConditionType ConditionFalse RejectedReason m tnow
    rw [← markRejected_conditions ir h m tnow] at hc
    have hne : ConditionFalse ≠ ConditionTrue := by decide
    have hrr : RejectedReason ≠ RunningReason := by decide
    refine ⟨⟨c, hc, hst, hre, hm⟩, ?_, ?_⟩
    · unfold HasCompleted; rw [hc]; simp [hst, hre, hne, hrr]
    · unfold HasFailed; rw [hc]; simp [hst, hre, hne, hrr]
  refine ⟨hstart, hcompl, hmain, ?_⟩
  intro hfresh
  obtain ⟨hnone, hs, hcp⟩ := hfresh
  have h : HasCompleted ir = false := by unfold HasCompleted; rw [hnone]
  obtain ⟨⟨c, hc, _, hre, _⟩, _, _⟩ := hmain h
  exact ⟨⟨c, hc, hre⟩, by rw [hstart, hs], by rw [hcompl, hcp]⟩

/-- Witness for C9: a new record rejected with the message of the spec's
scenario A. -/
theorem markRejected_frame_witness :
    HasCompleted (newRequest "r" "ns" "deploy-x") = false ∧
    isFresh (newRequest "r" "ns" "deploy-x") ∧
    HasFailed (MarkRejected (newRequest "r" "ns" "deploy-x") "unauthorized namespace" 3).ir = true ∧
    (MarkRejected (newRequest "r" "ns" "deploy-x") "unauthorized namespace" 3).ir.Status.StartTime
      = none :=
  ⟨by decide, by decide,
    ((markRejected_frame (newRequest "r" "ns" "deploy-x") "unauthorized namespace" 3).2.2.1
      (by decide)).2.2,
    ((markRejected_frame (newRequest "r" "ns" "deploy-x") "unauthorized namespace" 3).2.2.2
      (by decide)).2.1⟩

/-! ## The start time along sequences of calls -/

theorem isRunning_of_find (ir : InternalRequest) (c : Condition)
    (hc : FindStatusCondition ir.Status.Conditions SucceededConditionType = some c) :
    IsRunning ir = (decide (c.Status ≠ ConditionTrue) && decide (c.Reason = RunningReason)) := by
  unfold IsRunning; rw [hc]

theorem isRunning_markRunning (ir : InternalRequest) (h : HasCompleted ir = false)
    (now tnow : Time) : IsRunning (MarkRunning ir now tnow).ir = true := by
  obtain ⟨c, hc, hst, hre, _⟩ := find_setConditionWithMessage ir.Status.Conditions
    SucceededConditionType ConditionFalse RunningReason "" tnow
  rw [← markRunning_conditions ir h now tnow] at hc
  have hne : ConditionFalse ≠ ConditionTrue := by decide
  rw [isRunning_of_find _ c hc]; simp [hst, hre, hne]

theorem isRunning_markSucceeded (ir : InternalRequest) (h : HasCompleted ir = false)
    (now tnow : Time) : IsRunning (MarkSucceeded ir now tnow).ir = false := by
  obtain ⟨c, hc, hst, _, _⟩ := find_setConditionWithMessage ir.Status.Conditions
    SucceededConditionType ConditionTrue SucceededReason "" tnow
  rw [← markSucceeded_conditions ir h now tnow] at hc
  rw [isRunning_of_find _ c hc]; simp [hst]

theorem isRunning_markFailed (ir : InternalRequest) (h : HasCompleted ir = false)
    (m : String) (now tnow : Time) : IsRunning (MarkFailed ir m now tnow).ir = false := by
  obtain ⟨c, hc, _, hre, _⟩ := find_setConditionWithMessage ir.Status.Conditions
    SucceededConditionType ConditionFalse FailedReason m tnow
  rw [← markFailed_conditions ir h m now tnow] at hc
  have hfr : FailedReason ≠ RunningReason := by decide
  rw [isRunning_of_find _ c hc]; simp [hre, hfr]

theorem isRunning_markRejected (ir : InternalRequest) (h : HasCompleted ir = false)
    (m : String) (tnow : Time) : IsRunning (MarkRejected ir m tnow).ir = false := by
  obtain ⟨c, hc, _, hre, _⟩ := find_setConditionWithMessage ir.Status.Conditions
    SucceededConditionType ConditionFalse RejectedReason m tnow
  rw [← markRejected_conditions ir h m tnow] at hc
  have hrr : RejectedReason ≠ RunningReason := by decide
  rw [isRunning_of_find _ c hc]; simp [hre, hrr]

theorem startTime_markRunning (ir : InternalRequest) (h : HasCompleted ir = false)
    (now tnow : Time) :
    (MarkRunning ir now tnow).ir.Status.StartTime =
      if IsRunning ir then ir.Status.StartTime else some now := by
  unfold MarkRunning; cases hr : IsRunning ir <;> simp [h]

theorem startTime_markSucceeded (ir : InternalRequest) (now tnow : Time) :
    (MarkSucceeded ir now tnow).ir.Status.StartTime = ir.Status.StartTime := by
  unfold MarkSucceeded; cases h : HasCompleted ir <;> simp

theorem startTime_markFailed (ir : InternalRequest) (m : String) (now tnow : Time) :
    (MarkFailed ir m now tnow).ir.Status.StartTime = ir.Status.StartTime := by
  unfold MarkFailed; cases h : HasCompleted ir <;> simp

theorem startTime_markRejected (ir : InternalRequest) (m : String) (tnow : Time) :
    (MarkRejected ir m tnow).ir.Status.StartTime = ir.Status.StartTime := by
  unfold MarkRejected; cases h : HasCompleted ir <;> simp

/-- One call, on a record whose start time is set whenever it is running: the
start time is set afterwards exactly when it was set before or the record is
running afterwards. -/
theorem startTime_step (s : InternalRequest) (c : Call)
    (hinv : IsRunning s = true → s.Status.StartTime ≠ none) :
    (applyCall s c).Status.StartTime ≠ none ↔
      (s.Status.StartTime ≠ none ∨ IsRunning (applyCall s c) = true) := by
  cases hcomp : HasCompleted s with
  | true =>
    rw [applyCall_of_completed s hcomp c]
    constructor
    · intro hs; exact Or.inl hs
    · rintro (hs | hr)
      · exact hs
      · exact hinv hr
  | false =>
    cases c with
    | markRunning now tnow =>
      simp only [applyCall]
      rw [isRunning_markRunning s hcomp, startTime_markRunning s hcomp]
      cases hr : IsRunning s with
      | true => simp [hinv hr]
      | false => simp
    | markSucceeded now tnow =>
      simp only [applyCall]
      rw [isRunning_markSucceeded s hcomp, startTime_markSucceeded]
      simp
    | markFailed m now tnow =>
      simp only [applyCall]
      rw [isRunning_markFailed s hcomp, startTime_markFailed]
      simp
    | markRejected m tnow =>
      simp only [applyCall]
      rw [isRunning_markRejected s hcomp, startTime_markRejected]
      simp

theorem applyCalls_concat (ir : InternalRequest) (calls : List Call) (c : Call) :
    applyCalls ir (calls ++ [c]) = applyCall (applyCalls ir calls) c := by
  simp [applyCalls, List.foldl_append]

/-- Along any sequence of calls from a fresh record, the start time is set
exactly when the record was running after some prefix of the sequence. -/
theorem startTime_set_iff_was_running (ir : InternalRequest) (hfresh : isFresh ir)
    (calls : List Call) :
    (applyCalls ir calls).Status.StartTime ≠ none ↔
      ∃ pre, pre <+: calls ∧ IsRunning (applyCalls ir pre) = true := by
  induction calls using List.reverseRecOn with
  | nil =>
    obtain ⟨hnone, hs, _⟩ := hfresh
    have hrun : IsRunning ir = false := by unfold IsRunning; rw [hnone]
    constructor
    · intro hne; exact absurd hs hne
    · rintro ⟨pre, hpre, hr⟩
      rw [List.prefix_nil.mp hpre] at hr
      simp [applyCalls, hrun] at hr
  | append_singleton calls c ih =>
    have hinv : IsRunning (applyCalls ir calls) = true →
        (applyCalls ir calls).Status.StartTime ≠ none :=
      fun hr => ih.mpr ⟨calls, List.prefix_refl calls, hr⟩
    rw [applyCalls_concat, startTime_step _ c hinv, ih]
    constructor
    · rintro (⟨pre, hpre, hr⟩ | hr)
      · exact ⟨pre, List.prefix_concat_iff.mpr (Or.inr hpre), hr⟩
      · exact ⟨calls ++ [c], List.prefix_refl _, by rw [applyCalls_concat]; exact hr⟩
    · rintro ⟨pre, hpre, hr⟩
      rcases List.prefix_concat_iff.mp hpre with heq | hpre2
      · right; rw [heq, applyCalls_concat] at hr; exact hr
      · left; exact ⟨pre, hpre2, hr⟩

/-- C10, as stated, fails: from a new record, `MarkRunning` (clock reading 1)
followed by `MarkRejected` reaches a state whose Succeeded condition has the
reason Rejected and whose start time is set. -/
theorem rejected_after_running_keeps_startTime :
    isFresh (newRequest "r" "ns" "deploy-x") ∧
    (FindStatusCondition
        (applyCalls (newRequest "r" "ns" "deploy-x")
          [.markRunning 1 2, .markRejected "unauthorized" 3]).Status.Conditions
        SucceededConditionType).map (fun c => c.Reason) = some RejectedReason ∧
    (applyCalls (newRequest "r" "ns" "deploy-x")
      [.markRunning 1 2, .markRejected "unauthorized" 3]).Status.StartTime = some 1 := by
  decide

/-- C10, amended. In every state reachable from a fresh record by a finite
sequence of `MarkRunning`, `MarkSucceeded`, `MarkFailed` and `MarkRejected`
calls, if the reason of the Succeeded condition is Rejected then the start
time is set exactly when the record was running after some prefix of the
sequence: a record rejected without ever having been running has no start
time. -/
theorem rejected_startTime_iff_was_running (ir : InternalRequest) (hfresh : isFresh ir)
    (calls : List Call)
    (_hrej : ∃ c, FindStatusCondition (applyCalls ir calls).Status.Conditions
        SucceededConditionType = some c ∧ c.Reason = RejectedReason) :
    ((applyCalls ir calls).Status.StartTime ≠ none ↔
      ∃ pre, pre <+: calls ∧ IsRunning (applyCalls ir pre) = true) ∧
    ((∀ pre, pre <+: calls → IsRunning (applyCalls ir pre) = false) →
      (applyCalls ir calls).Status.StartTime = none) := by
  have hiff := startTime_set_iff_was_running ir hfresh calls
  refine ⟨hiff, ?_⟩
  intro hnever
  by_contra hne
  obtain ⟨pre, hpre, hr⟩ := hiff.mp hne
  rw [hnever pre hpre] at hr
  exact Bool.false_ne_true hr

/-- Witness for the amended C10: a new record that is rejected and then marked
running (a call without effect on the rejected record) was never running and
has no start time. -/
theorem rejected_startTime_iff_was_running_witness :
    isFresh (newRequest "r" "ns" "deploy-x") ∧
    (applyCalls (newRequest "r" "ns" "deploy-x")
      [.markRejected "unauthorized" 3, .markRunning 4 5]).Status.StartTime = none :=
  ⟨by decide,
    (rejected_startTime_iff_was_running (newRequest "r" "ns" "deploy-x") (by decide)
      [.markRejected "unauthorized" 3, .markRunning 4 5]
      ⟨_, rfl, by decide⟩).2
      (by
        intro pre hpre
        have hpre2 : pre <+: [Call.markRejected "unauthorized" 3] ++ [Call.markRunning 4 5] :=
          hpre
        rcases List.prefix_concat_iff.mp hpre2 with heq | hpre1
        · rw [heq]; decide
        · have hpre3 : pre <+: [] ++ [Call.markRejected "unauthorized" 3] := hpre1
          rcases List.prefix_concat_iff.mp hpre3 with heq1 | hpre0
          · rw [heq1]; decide
          · rw [List.prefix_nil.mp hpre0]; decide)⟩

/-! ## The shape of the reachable records -/

theorem completionTime_markRunning (ir : InternalRequest) (now tnow : Time) :
    (MarkRunning ir now tnow).ir.Status.CompletionTime = ir.Status.CompletionTime := by
  unfold MarkRunning
  cases h : HasCompleted ir <;> cases hr : IsRunning ir <;> simp

theorem completionTime_markRejected (ir : InternalRequest) (m : String) (tnow : Time) :
    (MarkRejected ir m tnow).ir.Status.CompletionTime = ir.Status.CompletionTime := by
  unfold MarkRejected; cases h : HasCompleted ir <;> simp

theorem completionTime_markSucceeded (ir : InternalRequest) (h : HasCompleted ir = false)
    (now tnow : Time) : (MarkSucceeded ir now tnow).ir.Status.CompletionTime = some now := by
  simp [MarkSucceeded, h]

theorem completionTime_markFailed (ir : InternalRequest) (h : HasCompleted ir = false)
    (m : String) (now tnow : Time) :
    (MarkFailed ir m now tnow).ir.Status.CompletionTime = some now := by
  simp [MarkFailed, h]

theorem lifecycleInvariant_of_fresh (ir : InternalRequest) (hfresh : isFresh ir) :
    lifecycleInvariant ir := by
  obtain ⟨hnone, hs, hc⟩ := hfresh
  unfold lifecycleInvariant
  rw [hnone]
  exact ⟨hs, hc⟩

/-- A record of one of the reachable shapes that has not completed has no
completion time, and it is running exactly when its start time is set. -/
theorem lifecycleInvariant_not_completed (s : InternalRequest) (hinv : lifecycleInvariant s)
    (hcomp : HasCompleted s = false) :
    s.Status.CompletionTime = none ∧
    (IsRunning s = true ↔ s.Status.StartTime ≠ none) := by
  unfold lifecycleInvariant at hinv
  unfold HasCompleted at hcomp
  unfold IsRunning
  have hft : ConditionFalse ≠ ConditionTrue := by decide
  have hfr : FailedReason ≠ RunningReason := by decide
  have hrr : RejectedReason ≠ RunningReason := by decide
  cases hf : FindStatusCondition s.Status.Conditions SucceededConditionType with
  | none =>
    rw [hf] at hinv
    simp [hinv.1, hinv.2]
  | some c =>
    rw [hf] at hinv hcomp
    rcases hinv with ⟨hst, hre, hs, hc⟩ | ⟨hst, _, _⟩ | ⟨hst, hre, _⟩ | ⟨hst, hre, _⟩
    · simp [hst, hre, hft, hs, hc]
    · simp [hst] at hcomp
    · simp [hst, hre, hft, hfr] at hcomp
    · simp [hst, hre, hft, hrr] at hcomp

theorem lifecycleInvariant_step (s : InternalRequest) (hinv : lifecycleInvariant s) (c : Call) :
    lifecycleInvariant (applyCall s c) := by
  cases hcomp : HasCompleted s with
  | true => rw [applyCall_of_completed s hcomp c]; exact hinv
  | false =>
    obtain ⟨hct, hrun⟩ := lifecycleInvariant_not_completed s hinv hcomp
    cases c with
    | markRunning now tnow =>
      obtain ⟨c, hc, hst, hre, _⟩ := find_setConditionWithMessage s.Status.Conditions
        SucceededConditionType ConditionFalse RunningReason "" tnow
      rw [← markRunning_conditions s hcomp now tnow] at hc
      simp only [applyCall]
      unfold lifecycleInvariant
      rw [hc]
      refine Or.inl ⟨hst, hre, ?_, ?_⟩
      · rw [startTime_markRunning s hcomp]
        cases hr : IsRunning s with
        | true => simpa using hrun.mp hr
        | false => simp
      · rw [completionTime_markRunning, hct]
    | markSucceeded now tnow =>
      obtain ⟨c, hc, hst, hre, _⟩ := find_setConditionWithMessage s.Status.Conditions
        SucceededConditionType ConditionTrue SucceededReason "" tnow
      rw [← markSucceeded_conditions s hcomp now tnow] at hc
      simp only [applyCall]
      unfold lifecycleInvariant
      rw [hc]
      refine Or.inr (Or.inl ⟨hst, hre, ?_⟩)
      rw [completionTime_markSucceeded s hcomp]; simp
    | markFailed m now tnow =>
      obtain ⟨c, hc, hst, hre, _⟩ := find_setConditionWithMessage s.Status.Conditions
        SucceededConditionType ConditionFalse FailedReason m tnow
      rw [← markFailed_conditions s hcomp m now tnow] at hc
      simp only [applyCall]
      unfold lifecycleInvariant
      rw [hc]
      refine Or.inr (Or.inr (Or.inl ⟨hst, hre, ?_⟩))
      rw [completionTime_markFailed s hcomp]; simp
    | markRejected m tnow =>
      obtain ⟨c, hc, hst, hre, _⟩ := find_setConditionWithMessage s.Status.Conditions
        SucceededConditionType ConditionFalse RejectedReason m tnow
      rw [← markRejected_conditions s hcomp m tnow] at hc
      simp only [applyCall]
      unfold lifecycleInvariant
      rw [hc]
      refine Or.inr (Or.inr (Or.inr ⟨hst, hre, ?_⟩))
      rw [completionTime_markRejected, hct]

theorem lifecycleInvariant_applyCalls (s : InternalRequest) (hinv : lifecycleInvariant s)
    (calls : List Call) : lifecycleInvariant (applyCalls s calls) := by
  induction calls generalizing s with
  | nil => exact hinv
  | cons c rest ih =>
    have hstep := ih (applyCall s c) (lifecycleInvariant_step s hinv c)
    simpa [applyCalls] using hstep

/-- C11. In every state reachable from a fresh record by a finite sequence of
`MarkRunning`, `MarkSucceeded`, `MarkFailed` and `MarkRejected` calls, the
completion time is set exactly when the record is Succeeded (status True,
reason Succeeded) or Failed (status False, reason Failed); it is not set
while the record is running, rejected or without a Succeeded condition. -/
theorem completionTime_set_iff_succeeded_or_failed (ir : InternalRequest)
    (hfresh : isFresh ir) (calls : List Call) :
    ((applyCalls ir calls).Status.CompletionTime ≠ none ↔
      ∃ c, FindStatusCondition (applyCalls ir calls).Status.Conditions
          SucceededConditionType = some c ∧
        ((c.Status = ConditionTrue ∧ c.Reason = SucceededReason) ∨
          (c.Status = ConditionFalse ∧ c.Reason = FailedReason))) ∧
    (IsRunning (applyCalls ir calls) = true →
      (applyCalls ir calls).Status.CompletionTime = none) ∧
    ((∃ c, FindStatusCondition (applyCalls ir calls).Status.Conditions
          SucceededConditionType = some c ∧ c.Reason = RejectedReason) →
      (applyCalls ir calls).Status.CompletionTime = none) ∧
    (FindStatusCondition (applyCalls ir calls).Status.Conditions SucceededConditionType = none →
      (applyCalls ir calls).Status.CompletionTime = none) := by
  have hinv := lifecycleInvariant_applyCalls ir (lifecycleInvariant_of_fresh ir hfresh) calls
  generalize applyCalls ir calls = s at hinv
  unfold lifecycleInvariant at hinv
  unfold IsRunning
  have hft : ConditionFalse ≠ ConditionTrue := by decide
  have h1 : RunningReason ≠ SucceededReason := by decide
  have h2 : RunningReason ≠ FailedReason := by decide
  have h3 : RejectedReason ≠ SucceededReason := by decide
  have h4 : RejectedReason ≠ FailedReason := by decide
  have h5 : SucceededReason ≠ RunningReason := by decide
  have h6 : FailedReason ≠ RunningReason := by decide
  have h7 : SucceededReason ≠ RejectedReason := by decide
  have h8 : FailedReason ≠ RejectedReason := by decide
  cases hf : FindStatusCondition s.Status.Conditions SucceededConditionType with
  | none =>
    rw [hf] at hinv
    simp [hinv.2]
  | some c =>
    rw [hf] at hinv
    rcases hinv with ⟨hst, hre, _, hc⟩ | ⟨hst, hre, hc⟩ | ⟨hst, hre, hc⟩ | ⟨hst, hre, hc⟩
    · simp [hst, hre, hc, hft, h1, h2]
    · simp [hst, hre, hc, h5, h7]
    · simp [hst, hre, hc, hft, h6, h8]
    · simp [hst, hre, hc, hft, h3, h4]

/-- Witness for C11: a new record marked running at 1 and failed at 2 has its
completion time set. -/
theorem completionTime_set_iff_succeeded_or_failed_witness :
    isFresh (newRequest "r" "ns" "deploy-x") ∧
    (applyCalls (newRequest "r" "ns" "deploy-x")
      [.markRunning 1 1, .markFailed "boom" 2 2]).Status.CompletionTime ≠ none :=
  ⟨by decide,
    (completionTime_set_iff_succeeded_or_failed (newRequest "r" "ns" "deploy-x") (by decide)
      [.markRunning 1 1, .markFailed "boom" 2 2]).1.mpr ⟨_, rfl, Or.inr ⟨by decide, by decide⟩⟩⟩

/-! ## Start-time stability -/

/-- On a record of a reachable shape, a call keeps a start time that is set. -/
theorem startTime_kept_step (s : InternalRequest) (hinv : lifecycleInvariant s) (c : Call)
    (t : Time) (hs : s.Status.StartTime = some t) :
    (applyCall s c).Status.StartTime = some t := by
  cases hcomp : HasCompleted s with
  | true => rw [applyCall_of_completed s hcomp c]; exact hs
  | false =>
    cases c with
    | markRunning now tnow =>
      have hrun : IsRunning s = true :=
        (lifecycleInvariant_not_completed s hinv hcomp).2.mpr (by rw [hs]; simp)
      simp only [applyCall]
      rw [startTime_markRunning s hcomp, hrun]
      simpa using hs
    | markSucceeded now tnow => simp only [applyCall]; rw [startTime_markSucceeded]; exact hs
    | markFailed m now tnow => simp only [applyCall]; rw [startTime_markFailed]; exact hs
    | markRejected m tnow => simp only [applyCall]; rw [startTime_markRejected]; exact hs

theorem startTime_kept_applyCalls (s : InternalRequest) (hinv : lifecycleInvariant s)
    (calls : List Call) (t : Time) (hs : s.Status.StartTime = some t) :
    (applyCalls s calls).Status.StartTime = some t := by
  induction calls generalizing s with
  | nil => exact hs
  | cons c rest ih =>
    have hstep := ih (applyCall s c) (lifecycleInvariant_step s hinv c)
      (startTime_kept_step s hinv c t hs)
    simpa [applyCalls] using hstep

/-- A call that sets a start time that was unset is a `MarkRunning` call: the
start time is its clock reading and the record is running afterwards. -/
theorem startTime_first_set (s : InternalRequest) (c : Call)
    (hs : s.Status.StartTime = none) (hset : (applyCall s c).Status.StartTime ≠ none) :
    ∃ now tnow, c = Call.markRunning now tnow ∧
      (applyCall s c).Status.StartTime = some now ∧ IsRunning (applyCall s c) = true := by
  cases hcomp : HasCompleted s with
  | true => rw [applyCall_of_completed s hcomp c] at hset; exact absurd hs hset
  | false =>
    cases c with
    | markRunning now tnow =>
      refine ⟨now, tnow, rfl, ?_, ?_⟩
      · simp only [applyCall] at hset ⊢
        rw [startTime_markRunning s hcomp] at hset ⊢
        cases hr : IsRunning s with
        | true => rw [hr] at hset; simp [hs] at hset
        | false => simp
      · simp only [applyCall]; exact isRunning_markRunning s hcomp now tnow
    | markSucceeded now tnow =>
      simp only [applyCall] at hset; rw [startTime_markSucceeded] at hset; exact absurd hs hset
    | markFailed m now tnow =>
      simp only [applyCall] at hset; rw [startTime_markFailed] at hset; exact absurd hs hset
    | markRejected m tnow =>
      simp only [applyCall] at hset; rw [startTime_markRejected] at hset; exact absurd hs hset

/-- C12. Start-time stability: along every finite sequence of `MarkRunning`,
`MarkSucceeded`, `MarkFailed` and `MarkRejected` calls applied to a fresh
record, with arbitrary clock readings, the start time is assigned at most
once. Once it is set after a prefix of the sequence, every later call (a
later `MarkRunning` included) leaves its value as it is; and the call that
sets it is a `MarkRunning` call that makes the record running and stores its
own clock reading. -/
theorem startTime_assigned_at_most_once (ir : InternalRequest) (hfresh : isFresh ir)
    (pre post : List Call) :
    (∀ t, (applyCalls ir pre).Status.StartTime = some t →
      (applyCalls ir (pre ++ post)).Status.StartTime = some t) ∧
    (∀ c, (applyCalls ir pre).Status.StartTime = none →
      (applyCalls ir (pre ++ [c])).Status.StartTime ≠ none →
      ∃ now tnow, c = Call.markRunning now tnow ∧
        (applyCalls ir (pre ++ [c])).Status.StartTime = some now ∧
        IsRunning (applyCalls ir (pre ++ [c])) = true) := by
  have hinv := lifecycleInvariant_applyCalls ir (lifecycleInvariant_of_fresh ir hfresh) pre
  constructor
  · intro t ht
    rw [applyCalls_append]
    exact startTime_kept_applyCalls _ hinv post t ht
  · intro c hnone hset
    rw [applyCalls_concat] at hset ⊢
    exact startTime_first_set _ c hnone hset

/-- Witness for C12: a new record marked running at 1 keeps the start time 1
through a second `MarkRunning` at 5 and a `MarkSucceeded` at 7. -/
theorem startTime_assigned_at_most_once_witness :
    isFresh (newRequest "r" "ns" "deploy-x") ∧
    (applyCalls (newRequest "r" "ns" "deploy-x")
      ([.markRunning 1 2] ++ [.markRunning 5 6, .markSucceeded 7 8])).Status.StartTime = some 1 :=
  ⟨by decide,
    (startTime_assigned_at_most_once (newRequest "r" "ns" "deploy-x") (by decide)
      [.markRunning 1 2] [.markRunning 5 6, .markSucceeded 7 8]).1 1 (by decide)⟩

/-- C13. For every finite sequence of `MarkRunning`, `MarkSucceeded`,
`MarkFailed` and `MarkRejected` calls applied to a fresh record, the start
time is set in the final state if and only if `IsRunning` was true in the
state after some prefix of the sequence. -/
theorem startTime_set_iff_ever_running (ir : InternalRequest) (hfresh : isFresh ir)
    (calls : List Call) :
    (applyCalls ir calls).Status.StartTime ≠ none ↔
      ∃ pre, pre <+: calls ∧ IsRunning (applyCalls ir pre) = true :=
  startTime_set_iff_was_running ir hfresh calls

/-- Witness for C13: a new record marked running at 1 and then failed at 2
was running after the first call, and its start time is set. -/
theorem startTime_set_iff_ever_running_witness :
    isFresh (newRequest "r" "ns" "deploy-x") ∧
    (applyCalls (newRequest "r" "ns" "deploy-x")
      [.markRunning 1 1, .markFailed "boom" 2 2]).Status.StartTime ≠ none :=
  ⟨by decide,
    (startTime_set_iff_ever_running (newRequest "r" "ns" "deploy-x") (by decide)
      [.markRunning 1 1, .markFailed "boom" 2 2]).mpr
      ⟨[.markRunning 1 1], ⟨[.markFailed "boom" 2 2], rfl⟩, by decide⟩⟩

/-! ## The request's spec, the completion metric, the predicates -/

theorem spec_applyCall (ir : InternalRequest) (c : Call) : (applyCall ir c).Spec = ir.Spec := by
  cases hcomp : HasCompleted ir <;> cases c
  all_goals first
    | (simp only [applyCall, MarkRunning]; cases hr : IsRunning ir <;> simp [hcomp])
    | simp [applyCall, MarkSucceeded, MarkFailed, MarkRejected, hcomp]

theorem spec_applyCalls (ir : InternalRequest) (calls : List Call) :
    (applyCalls ir calls).Spec = ir.Spec := by
  induction calls generalizing ir with
  | nil => rfl
  | cons c rest ih =>
    have hstep := ih (applyCall ir c)
    rw [spec_applyCall] at hstep
    simpa [applyCalls] using hstep

/-- C15. No mutator changes the request's spec: `MarkRunning`, `MarkSucceeded`,
`MarkFailed m` and `MarkRejected m` leave `Spec.Request` and `Spec.Params` as
they are on every record, completed or not, and so does every finite
sequence of these calls. -/
theorem mutators_keep_spec (ir : InternalRequest) (m : String) (now tnow : Time) :
    ((MarkRunning ir now tnow).ir.Spec.Request = ir.Spec.Request ∧
      (MarkRunning ir now tnow).ir.Spec.Params = ir.Spec.Params) ∧
    ((MarkSucceeded ir now tnow).ir.Spec.Request = ir.Spec.Request ∧
      (MarkSucceeded ir now tnow).ir.Spec.Params = ir.Spec.Params) ∧
    ((MarkFailed ir m now tnow).ir.Spec.Request = ir.Spec.Request ∧
      (MarkFailed ir m now tnow).ir.Spec.Params = ir.Spec.Params) ∧
    ((MarkRejected ir m tnow).ir.Spec.Request = ir.Spec.Request ∧
      (MarkRejected ir m tnow).ir.Spec.Params = ir.Spec.Params) ∧
    (∀ calls : List Call, (applyCalls ir calls).Spec.Request = ir.Spec.Request ∧
      (applyCalls ir calls).Spec.Params = ir.Spec.Params) := by
  have h1 := spec_applyCall ir (.markRunning now tnow)
  have h2 := spec_applyCall ir (.markSucceeded now tnow)
  have h3 := spec_applyCall ir (.markFailed m now tnow)
  have h4 := spec_applyCall ir (.markRejected m tnow)
  simp only [applyCall] at h1 h2 h3 h4
  refine ⟨by rw [h1]; exact ⟨rfl, rfl⟩, by rw [h2]; exact ⟨rfl, rfl⟩,
    by rw [h3]; exact ⟨rfl, rfl⟩, by rw [h4]; exact ⟨rfl, rfl⟩, ?_⟩
  intro calls
  rw [spec_applyCalls ir calls]; exact ⟨rfl, rfl⟩

/-- C17. A completion metric is emitted exactly by a call that performs the
transition to Succeeded or Failed: on a record on which `HasCompleted` is
false, `MarkSucceeded` and `MarkFailed m` each emit exactly one metric,
carrying the requested job, the namespace, the reason Succeeded or Failed, the
start time, the new completion time and the flag true or false; on a record
on which `HasCompleted` is true they emit none; `MarkRunning` and
`MarkRejected m` never emit one. -/
theorem completion_metric_emitted (ir : InternalRequest) (m : String) (now tnow : Time) :
    (HasCompleted ir = false →
      (MarkSucceeded ir now tnow).emitted =
        [{ request := ir.Spec.Request, ns := ir.Namespace, reason := SucceededReason,
           startTime := ir.Status.StartTime, completionTime := some now, succeeded := true }] ∧
      (MarkFailed ir m now tnow).emitted =
        [{ request := ir.Spec.Request, ns := ir.Namespace, reason := FailedReason,
           startTime := ir.Status.StartTime, completionTime := some now, succeeded := false }]) ∧
    (HasCompleted ir = true →
      (MarkSucceeded ir now tnow).emitted = [] ∧ (MarkFailed ir m now tnow).emitted = []) ∧
    (MarkRunning ir now tnow).emitted = [] ∧
    (MarkRejected ir m tnow).emitted = [] := by
  refine ⟨?_, ?_, ?_, ?_⟩
  · intro h; simp [MarkSucceeded, MarkFailed, h]
  · intro h; simp [MarkSucceeded, MarkFailed, h]
  · unfold MarkRunning; cases h : HasCompleted ir <;> simp
  · unfold MarkRejected; cases h : HasCompleted ir <;> simp

/-- Witness for C17: a running record (started at 1) marked succeeded at 7
emits one metric with start time 1 and completion time 7; marked succeeded
once more, it emits none. -/
theorem completion_metric_emitted_witness :
    HasCompleted (MarkRunning (newRequest "r" "ns" "deploy-x") 1 1).ir = false ∧
    (MarkSucceeded (MarkRunning (newRequest "r" "ns" "deploy-x") 1 1).ir 7 8).emitted =
      [{ request := "deploy-x", ns := "ns", reason := SucceededReason,
         startTime := some 1, completionTime := some 7, succeeded := true }] ∧
    HasCompleted succeededRequest = true ∧
    (MarkSucceeded succeededRequest 9 9).emitted = [] :=
  ⟨by decide,
    ((completion_metric_emitted (MarkRunning (newRequest "r" "ns" "deploy-x") 1 1).ir
      "" 7 8).1 (by decide)).1,
    by decide,
    ((completion_metric_emitted succeededRequest "" 9 9).2.1 (by decide)).1⟩

/-- C18. The four predicates classify every record consistently: at most one
of `IsRunning`, `HasSucceeded` and `HasFailed` is true, `HasCompleted` is true
if and only if `HasSucceeded` or `HasFailed` is true, and a record without a
Succeeded condition satisfies none of the four. -/
theorem predicates_classify (ir : InternalRequest) :
    ¬ (IsRunning ir = true ∧ HasSucceeded ir = true) ∧
    ¬ (IsRunning ir = true ∧ HasFailed ir = true) ∧
    ¬ (HasSucceeded ir = true ∧ HasFailed ir = true) ∧
    (HasCompleted ir = true ↔ (HasSucceeded ir = true ∨ HasFailed ir = true)) ∧
    (FindStatusCondition ir.Status.Conditions SucceededConditionType = none →
      IsRunning ir = false ∧ HasSucceeded ir = false ∧ HasFailed ir = false ∧
      HasCompleted ir = false) := by
  unfold HasSucceeded
  rw [isStatusConditionTrue_eq]
  unfold IsRunning HasFailed HasCompleted
  cases hf : FindStatusCondition ir.Status.Conditions SucceededConditionType with
  | none => simp
  | some c =>
    by_cases hs : c.Status = ConditionTrue
    · simp [hs]
    · by_cases hr : c.Reason = RunningReason
      · simp [hs, hr]
      · simp [hs, hr]

/-- Witness for C18: a new record has no Succeeded condition and satisfies
none of the four predicates. -/
theorem predicates_classify_witness :
    FindStatusCondition (newRequest "r" "ns" "deploy-x").Status.Conditions
      SucceededConditionType = none ∧
    IsRunning (newRequest "r" "ns" "deploy-x") = false ∧
    HasCompleted (newRequest "r" "ns" "deploy-x") = false :=
  ⟨by decide,
    ((predicates_classify (newRequest "r" "ns" "deploy-x")).2.2.2.2 (by decide)).1,
    ((predicates_classify (newRequest "r" "ns" "deploy-x")).2.2.2.2 (by decide)).2.2.2⟩

/-! ## Reconcile -/

/-- C14. When the record is found, `Reconcile` hands `ReconcileHandler` exactly
seven operations in a fixed order: `EnsureRequestINotCompleted` first, then
`EnsureConfigIsLoaded`, `EnsureRequestIsAllowed`, `EnsurePipelineExists`,
`EnsurePipelineRunIsCreated`, `EnsureStatusIsTracked`, and
`EnsurePipelineRunIsDeleted` last; the list is the same for every record. -/
theorem reconcile_hands_seven_operations {ε σ : Type} (IsNotFound : ε → Bool)
    (Get : NamespacedName → σ → Except ε InternalRequest)
    (newAdapter : InternalRequest → σ → σ)
    (ReconcileHandler : List Operation → σ → (Result × Option ε) × σ)
    (req : NamespacedName) (s : σ) (internalRequest : InternalRequest)
    (hfound : Get req s = .ok internalRequest) :
    Reconcile IsNotFound Get newAdapter ReconcileHandler req s =
      ReconcileHandler
        [Operation.EnsureRequestINotCompleted, Operation.EnsureConfigIsLoaded,
         Operation.EnsureRequestIsAllowed, Operation.EnsurePipelineExists,
         Operation.EnsurePipelineRunIsCreated, Operation.EnsureStatusIsTracked,
         Operation.EnsurePipelineRunIsDeleted]
        (newAdapter internalRequest s) ∧
    [Operation.EnsureRequestINotCompleted, Operation.EnsureConfigIsLoaded,
     Operation.EnsureRequestIsAllowed, Operation.EnsurePipelineExists,
     Operation.EnsurePipelineRunIsCreated, Operation.EnsureStatusIsTracked,
     Operation.EnsurePipelineRunIsDeleted].length = 7 := by
  unfold Reconcile
  rw [hfound]
  exact ⟨rfl, rfl⟩

/-- Witness for C14: with a handler that records the operations it is given,
reconciling the known record leaves exactly the seven operations, in order,
in the state. -/
theorem reconcile_hands_seven_operations_witness :
    sampleGet ⟨"ns", "r"⟩ [] = .ok (newRequest "r" "ns" "deploy-x") ∧
    (Reconcile (fun e => decide (e = "NotFound")) sampleGet (fun _ s => s) recordingHandler
      ⟨"ns", "r"⟩ []).2 =
      [Operation.EnsureRequestINotCompleted, Operation.EnsureConfigIsLoaded,
       Operation.EnsureRequestIsAllowed, Operation.EnsurePipelineExists,
       Operation.EnsurePipelineRunIsCreated, Operation.EnsureStatusIsTracked,
       Operation.EnsurePipelineRunIsDeleted] :=
  ⟨rfl,
    by
      rw [(reconcile_hands_seven_operations (fun e => decide (e = "NotFound")) sampleGet
        (fun _ s => s) recordingHandler ⟨"ns", "r"⟩ [] (newRequest "r" "ns" "deploy-x")
        rfl).1]
      rfl⟩

/-- C19. The initial fetch of `Reconcile`: when it fails with a not-found
error, `Reconcile` returns the empty result and no error; when it fails with
any other error, it returns the empty result and that same error; in both
cases the handler is not called, so no operation runs and the state is as it
was. Only a successful fetch reaches the list of operations. -/
theorem reconcile_fetch_handling {ε σ : Type} (IsNotFound : ε → Bool)
    (Get : NamespacedName → σ → Except ε InternalRequest)
    (newAdapter : InternalRequest → σ → σ)
    (ReconcileHandler : List Operation → σ → (Result × Option ε) × σ)
    (req : NamespacedName) (s : σ) :
    (∀ err, Get req s = .error err → IsNotFound err = true →
      Reconcile IsNotFound Get newAdapter ReconcileHandler req s = ((emptyResult, none), s)) ∧
    (∀ err, Get req s = .error err → IsNotFound err = false →
      Reconcile IsNotFound Get newAdapter ReconcileHandler req s =
        ((emptyResult, some err), s)) ∧
    (∀ ir, Get req s = .ok ir →
      ∃ ops, ops.length = 7 ∧
        Reconcile IsNotFound Get newAdapter ReconcileHandler req s =
          ReconcileHandler ops (newAdapter ir s)) := by
  refine ⟨?_, ?_, ?_⟩
  · intro err hget hnf
    unfold Reconcile; rw [hget]; simp [hnf]
  · intro err hget hnf
    unfold Reconcile; rw [hget]; simp [hnf]
  · intro ir hget
    unfold Reconcile; rw [hget]
    exact ⟨[Operation.EnsureRequestINotCompleted, Operation.EnsureConfigIsLoaded,
      Operation.EnsureRequestIsAllowed, Operation.EnsurePipelineExists,
      Operation.EnsurePipelineRunIsCreated, Operation.EnsureStatusIsTracked,
      Operation.EnsurePipelineRunIsDeleted], rfl, rfl⟩

/-- Witness for C19: with the recording handler, a request for an unknown
record returns the empty result without error, a request that fails
otherwise returns that error, and in both cases no operation is recorded. -/
theorem reconcile_fetch_handling_witness :
    Reconcile (fun e => decide (e = "NotFound")) sampleGet (fun _ s => s) recordingHandler
      ⟨"ns", "missing"⟩ [] = ((emptyResult, none), []) ∧
    Reconcile (fun e => decide (e = "NotFound")) sampleGet (fun _ s => s) recordingHandler
      ⟨"ns", "broken"⟩ [] = ((emptyResult, some "connection refused"), []) :=
  ⟨(reconcile_fetch_handling (fun e => decide (e = "NotFound")) sampleGet (fun _ s => s)
      recordingHandler ⟨"ns", "missing"⟩ []).1 "NotFound" rfl (by decide),
    (reconcile_fetch_handling (fun e => decide (e = "NotFound")) sampleGet (fun _ s => s)
      recordingHandler ⟨"ns", "broken"⟩ []).2.1 "connection refused" rfl (by decide)⟩

/-! ## The number of jobs the pipeline creates -/

theorem jobName_markRunning (ir : InternalRequest) (now tnow : Time) :
    jobName (MarkRunning ir now tnow).ir = jobName ir := by
  unfold jobName MarkRunning
  cases h : HasCompleted ir <;> cases hr : IsRunning ir <;> simp

theorem jobName_markSucceeded (ir : InternalRequest) (now tnow : Time) :
    jobName (MarkSucceeded ir now tnow).ir = jobName ir := by
  unfold jobName MarkSucceeded
  cases h : HasCompleted ir <;> simp

theorem jobName_markFailed (ir : InternalRequest) (m : String) (now tnow : Time) :
    jobName (MarkFailed ir m now tnow).ir = jobName ir := by
  unfold jobName MarkFailed
  cases h : HasCompleted ir <;> simp

theorem jobName_markRejected (ir : InternalRequest) (m : String) (tnow : Time) :
    jobName (MarkRejected ir m tnow).ir = jobName ir := by
  unfold jobName MarkRejected
  cases h : HasCompleted ir <;> simp

theorem hasCompleted_of_terminal (ir : InternalRequest)
    (h : (HasSucceeded ir || HasFailed ir) = true) : HasCompleted ir = true := by
  unfold HasSucceeded at h
  rw [isStatusConditionTrue_eq] at h
  unfold HasFailed at h
  unfold HasCompleted
  cases hf : FindStatusCondition ir.Status.Conditions SucceededConditionType with
  | none => rw [hf] at h; simp at h
  | some c =>
    rw [hf] at h
    by_cases hs : c.Status = ConditionTrue
    · simp [hs]
    · simpa [hs] using h

theorem noJobYet_record (w : Cluster) (r : InternalRequest)
    (hn : jobName r = jobName w.record) (h : noJobYet w) :
    noJobYet { w with record := r } := by
  unfold noJobYet at h ⊢
  simpa [hn] using h

theorem oneJobCreated_record (w : Cluster) (r : InternalRequest)
    (hn : jobName r = jobName w.record)
    (hc : HasCompleted w.record = true → HasCompleted r = true) (h : oneJobCreated w) :
    oneJobCreated { w with record := r } := by
  unfold oneJobCreated at h ⊢
  obtain ⟨h1, h2⟩ := h
  refine ⟨h1, ?_⟩
  rcases h2 with hj | hcomp
  · left; simpa [hn] using hj
  · right; exact hc hcomp

/-- The record the tracking step leaves: the same job name, and completed if
it was completed. -/
theorem tracked_record (env : Collaborators) (w : Cluster) :
    ∃ r, (runOperation env .EnsureStatusIsTracked w).2 = { w with record := r } ∧
      jobName r = jobName w.record ∧
      (HasCompleted w.record = true → HasCompleted r = true) := by
  simp only [runOperation]
  cases hobs : env.observed with
  | notStarted => exact ⟨w.record, rfl, rfl, fun h => h⟩
  | running => exact ⟨w.record, rfl, rfl, fun h => h⟩
  | succeeded results =>
    refine ⟨_, rfl, ?_, ?_⟩
    · rw [jobName_markSucceeded]; rfl
    · intro h
      have h2 : HasCompleted
          { w.record with Status := { w.record.Status with Results := results } } = true := h
      rw [markSucceeded_of_completed _ h2]; exact h2
  | failed details =>
    refine ⟨_, rfl, jobName_markFailed _ _ _ _, ?_⟩
    intro h
    rw [markFailed_of_completed _ h]; exact h

/-- The cluster the deletion step leaves: the job of a terminal record is
removed, or nothing changes. -/
theorem deleted_cluster (env : Collaborators) (w : Cluster) :
    ((HasSucceeded w.record || HasFailed w.record) = true ∧
      (runOperation env .EnsurePipelineRunIsDeleted w).2 =
        { w with jobs := w.jobs.filter (fun n => n ≠ jobName w.record) }) ∨
    (runOperation env .EnsurePipelineRunIsDeleted w).2 = w := by
  simp only [runOperation]
  by_cases hc : ((HasSucceeded w.record || HasFailed w.record) && env.retentionSatisfied) = true
  · left
    rw [if_pos hc]
    simp only [Bool.and_eq_true] at hc
    exact ⟨hc.1, rfl⟩
  · right
    rw [if_neg hc]

theorem noJobYet_tail_step (env : Collaborators) (op : Operation)
    (hop : op ∈ [Operation.EnsureStatusIsTracked, Operation.EnsurePipelineRunIsDeleted])
    (w : Cluster) (h : noJobYet w) : noJobYet (runOperation env op w).2 := by
  simp only [List.mem_cons, List.mem_singleton, List.mem_nil_iff, or_false] at hop
  rcases hop with rfl | rfl
  · obtain ⟨r, hr, hn, _⟩ := tracked_record env w
    rw [hr]; exact noJobYet_record w r hn h
  · rcases deleted_cluster env w with ⟨hterm, hd⟩ | hd
    · rw [hd]
      unfold noJobYet at h ⊢
      refine ⟨h.1, ?_⟩
      simp [List.mem_filter]
    · rw [hd]; exact h

theorem oneJobCreated_tail_step (env : Collaborators) (op : Operation)
    (hop : op ∈ [Operation.EnsureStatusIsTracked, Operation.EnsurePipelineRunIsDeleted])
    (w : Cluster) (h : oneJobCreated w) : oneJobCreated (runOperation env op w).2 := by
  simp only [List.mem_cons, List.mem_singleton, List.mem_nil_iff, or_false] at hop
  rcases hop with rfl | rfl
  · obtain ⟨r, hr, hn, hc⟩ := tracked_record env w
    rw [hr]; exact oneJobCreated_record w r hn hc h
  · rcases deleted_cluster env w with ⟨hterm, hd⟩ | hd
    · rw [hd]
      unfold oneJobCreated at h ⊢
      exact ⟨h.1, Or.inr (hasCompleted_of_terminal w.record hterm)⟩
    · rw [hd]; exact h

/-- A property that every step of a list preserves holds after the handler
has run the list. -/
theorem handler_preserves (env : Collaborators) (P : Cluster → Prop) (ops : List Operation)
    (hstep : ∀ op ∈ ops, ∀ w, P w → P (runOperation env op w).2) (w : Cluster) (hw : P w) :
    P (ReconcileHandler env ops w).2 := by
  induction ops generalizing w with
  | nil => simpa [ReconcileHandler] using hw
  | cons op rest ih =>
    have h1 := hstep op (List.mem_cons_self _ _) w hw
    have hrest : ∀ o ∈ rest, ∀ w, P w → P (runOperation env o w).2 :=
      fun o ho => hstep o (List.mem_cons_of_mem _ ho)
    unfold ReconcileHandler
    cases hr : runOperation env op w with
    | mk d w1 =>
      rw [hr] at h1
      cases d with
      | continueProcessing => exact ih hrest w1 h1
      | stopAndRequeue => exact h1
      | stop => exact h1
      | error => exact h1

theorem handler_cons_continue (env : Collaborators) (op : Operation) (rest : List Operation)
    (w w1 : Cluster) (h : runOperation env op w = (.continueProcessing, w1)) :
    ReconcileHandler env (op :: rest) w = ReconcileHandler env rest w1 := by
  rw [ReconcileHandler, h]

theorem handler_cons_halt (env : Collaborators) (op : Operation) (rest : List Operation)
    (w w1 : Cluster) (d : Directive) (h : runOperation env op w = (d, w1))
    (hd : d ≠ .continueProcessing) : (ReconcileHandler env (op :: rest) w).2 = w1 := by
  rw [ReconcileHandler, h]
  cases d with
  | continueProcessing => exact absurd rfl hd
  | stopAndRequeue => rfl
  | stop => rfl
  | error => rfl

theorem reconcileOnce_eq (env : Collaborators) (w : Cluster) :
    reconcileOnce env w =
      (ReconcileHandler env
        [.EnsureRequestINotCompleted, .EnsureConfigIsLoaded, .EnsureRequestIsAllowed,
         .EnsurePipelineExists, .EnsurePipelineRunIsCreated, .EnsureStatusIsTracked,
         .EnsurePipelineRunIsDeleted] w).2 := rfl

/-- When the record has not completed, the configuration loads, the request
is allowed and the template is found, an invocation reaches the creation
step with the cluster as it was. -/
theorem reconcileOnce_reaches_creation (env : Collaborators) (w : Cluster)
    (hnc : HasCompleted w.record = false) (hcfg : env.configLoads = true)
    (hden : env.denied = none) (htmpl : env.templateFound = true) :
    reconcileOnce env w =
      (ReconcileHandler env
        [.EnsurePipelineRunIsCreated, .EnsureStatusIsTracked, .EnsurePipelineRunIsDeleted] w).2 := by
  rw [reconcileOnce_eq]
  rw [handler_cons_continue env _ _ w w (by simp [runOperation, hnc])]
  rw [handler_cons_continue env _ _ w w (by simp [runOperation, hcfg])]
  rw [handler_cons_continue env _ _ w w (by simp [runOperation, hden])]
  rw [handler_cons_continue env _ _ w w (by simp [runOperation, htmpl])]

/-- An invocation either only rewrites the record, keeping its job name and
its completion, or reaches the creation step on a record that has not
completed. -/
theorem reconcileOnce_front (env : Collaborators) (w : Cluster) :
    (∃ r, reconcileOnce env w = { w with record := r } ∧ jobName r = jobName w.record ∧
      (HasCompleted w.record = true → HasCompleted r = true)) ∨
    (HasCompleted w.record = false ∧ env.configLoads = true ∧ env.denied = none ∧
      env.templateFound = true ∧
      reconcileOnce env w =
        (ReconcileHandler env
          [.EnsurePipelineRunIsCreated, .EnsureStatusIsTracked,
           .EnsurePipelineRunIsDeleted] w).2) := by
  by_cases hc : HasCompleted w.record = true
  · left
    refine ⟨w.record, ?_, rfl, fun h => h⟩
    rw [reconcileOnce_eq]
    exact handler_cons_halt env _ _ w w .stop (by simp [runOperation, hc]) (by decide)
  · have hnc : HasCompleted w.record = false := Bool.eq_false_iff.mpr hc
    cases hcfg : env.configLoads with
    | false =>
      left
      refine ⟨w.record, ?_, rfl, fun h => h⟩
      rw [reconcileOnce_eq]
      rw [handler_cons_continue env _ _ w w (by simp [runOperation, hnc])]
      exact handler_cons_halt env _ _ w w .stopAndRequeue (by simp [runOperation, hcfg])
        (by decide)
    | true =>
      cases hden : env.denied with
      | some reason =>
        left
        refine ⟨(MarkRejected w.record reason env.tnow).ir, ?_, jobName_markRejected _ _ _, ?_⟩
        · rw [reconcileOnce_eq]
          rw [handler_cons_continue env _ _ w w (by simp [runOperation, hnc])]
          rw [handler_cons_continue env _ _ w w (by simp [runOperation, hcfg])]
          exact handler_cons_halt env _ _ w _ .stop (by simp [runOperation, hden]) (by decide)
        · intro h; rw [hnc] at h; exact absurd h (by decide)
      | none =>
        cases htmpl : env.templateFound with
        | false =>
          left
          refine ⟨(MarkFailed w.record "job template not found" env.now env.tnow).ir, ?_,
            jobName_markFailed _ _ _ _, ?_⟩
          · rw [reconcileOnce_eq]
            rw [handler_cons_continue env _ _ w w (by simp [runOperation, hnc])]
            rw [handler_cons_continue env _ _ w w (by simp [runOperation, hcfg])]
            rw [handler_cons_continue env _ _ w w (by simp [runOperation, hden])]
            exact handler_cons_halt env _ _ w _ .stop (by simp [runOperation, htmpl])
              (by decide)
          · intro h; rw [hnc] at h; exact absurd h (by decide)
        | true =>
          right
          exact ⟨hnc, rfl, rfl, rfl, reconcileOnce_reaches_creation env w hnc hcfg hden htmpl⟩

/-- From the creation step on, a cluster whose one job exists keeps it as its
one job. -/
theorem creation_keeps_oneJobCreated (env : Collaborators) (w : Cluster)
    (hnc : HasCompleted w.record = false) (h : oneJobCreated w) :
    oneJobCreated (ReconcileHandler env
      [.EnsurePipelineRunIsCreated, .EnsureStatusIsTracked, .EnsurePipelineRunIsDeleted] w).2 := by
  have hj : jobName w.record ∈ w.jobs := by
    rcases h.2 with hj | hc
    · exact hj
    · rw [hnc] at hc; exact absurd hc (by decide)
  rw [handler_cons_continue env _ _ w
    { w with record := (MarkRunning w.record env.now env.tnow).ir }
    (by simp [runOperation, hj])]
  apply handler_preserves env oneJobCreated _ (oneJobCreated_tail_step env)
  exact oneJobCreated_record w _ (jobName_markRunning _ _ _)
    (fun hc => by rw [hnc] at hc; exact absurd hc (by decide)) h

/-- From the creation step on, a cluster without a job gets at most one, and
exactly one when the creation succeeds. -/
theorem creation_from_noJobYet (env : Collaborators) (w : Cluster) (h : noJobYet w) :
    (noJobYet (ReconcileHandler env
        [.EnsurePipelineRunIsCreated, .EnsureStatusIsTracked,
         .EnsurePipelineRunIsDeleted] w).2 ∨
      oneJobCreated (ReconcileHandler env
        [.EnsurePipelineRunIsCreated, .EnsureStatusIsTracked,
         .EnsurePipelineRunIsDeleted] w).2) ∧
    (env.createFails = false →
      oneJobCreated (ReconcileHandler env
        [.EnsurePipelineRunIsCreated, .EnsureStatusIsTracked,
         .EnsurePipelineRunIsDeleted] w).2) := by
  obtain ⟨h0, hj⟩ := h
  cases hcf : env.createFails with
  | true =>
    have hw : (ReconcileHandler env
        [.EnsurePipelineRunIsCreated, .EnsureStatusIsTracked,
         .EnsurePipelineRunIsDeleted] w).2 = w :=
      handler_cons_halt env _ _ w w .stopAndRequeue (by simp [runOperation, hj, hcf])
        (by decide)
    rw [hw]
    exact ⟨Or.inl ⟨h0, hj⟩, fun hne => absurd hne (by decide)⟩
  | false =>
    have hone : oneJobCreated (ReconcileHandler env
        [.EnsurePipelineRunIsCreated, .EnsureStatusIsTracked,
         .EnsurePipelineRunIsDeleted] w).2 := by
      rw [handler_cons_continue env _ _ w
        { record := (MarkRunning w.record env.now env.tnow).ir
          jobs := jobName w.record :: w.jobs
          created := w.created + 1 }
        (by simp [runOperation, hj, hcf])]
      apply handler_preserves env oneJobCreated _ (oneJobCreated_tail_step env)
      unfold oneJobCreated
      refine ⟨by simp [h0], Or.inl ?_⟩
      simp [jobName_markRunning]
    exact ⟨Or.inr hone, fun _ => hone⟩

theorem reconcileOnce_oneJobCreated (env : Collaborators) (w : Cluster)
    (h : oneJobCreated w) : oneJobCreated (reconcileOnce env w) := by
  rcases reconcileOnce_front env w with ⟨r, hr, hn, hc⟩ | ⟨hnc, _, _, _, hr⟩
  · rw [hr]; exact oneJobCreated_record w r hn hc h
  · rw [hr]; exact creation_keeps_oneJobCreated env w hnc h

theorem reconcileOnce_noJobYet (env : Collaborators) (w : Cluster) (h : noJobYet w) :
    noJobYet (reconcileOnce env w) ∨ oneJobCreated (reconcileOnce env w) := by
  rcases reconcileOnce_front env w with ⟨r, hr, hn, _⟩ | ⟨_, _, _, _, hr⟩
  · rw [hr]; exact Or.inl (noJobYet_record w r hn h)
  · rw [hr]; exact (creation_from_noJobYet env w h).1

theorem reconcileMany_oneJobCreated (envs : List Collaborators) (w : Cluster)
    (h : oneJobCreated w) : oneJobCreated (reconcileMany envs w) := by
  induction envs generalizing w with
  | nil => exact h
  | cons env rest ih =>
    have hstep := ih (reconcileOnce env w) (reconcileOnce_oneJobCreated env w h)
    simpa [reconcileMany] using hstep

theorem reconcileMany_noJobYet (envs : List Collaborators) (w : Cluster) (h : noJobYet w) :
    noJobYet (reconcileMany envs w) ∨ oneJobCreated (reconcileMany envs w) := by
  induction envs generalizing w with
  | nil => exact Or.inl h
  | cons env rest ih =>
    rcases reconcileOnce_noJobYet env w h with h0 | h1
    · have hstep := ih (reconcileOnce env w) h0
      simpa [reconcileMany] using hstep
    · have hstep := reconcileMany_oneJobCreated rest (reconcileOnce env w) h1
      exact Or.inr (by simpa [reconcileMany] using hstep)

/-- From the creation step on, a cluster without a job stays as it is when
the creation fails. -/
theorem creation_fails_keeps_cluster (env : Collaborators) (w : Cluster) (h : noJobYet w)
    (hcf : env.createFails = true) :
    (ReconcileHandler env
      [.EnsurePipelineRunIsCreated, .EnsureStatusIsTracked,
       .EnsurePipelineRunIsDeleted] w).2 = w :=
  handler_cons_halt env _ _ w w .stopAndRequeue (by simp [runOperation, h.2, hcf]) (by decide)

/-- On a cluster without a job, an invocation that reaches the creation
creates the one job. -/
theorem reconcileOnce_creates (env : Collaborators) (w : Cluster) (h : noJobYet w)
    (hr : reachesCreation env w) : oneJobCreated (reconcileOnce env w) := by
  obtain ⟨hnc, hcfg, hden, htmpl, hcf⟩ := hr
  rw [reconcileOnce_reaches_creation env w hnc hcfg hden htmpl]
  exact (creation_from_noJobYet env w h).2 hcf

/-- On a cluster without a job, an invocation that does not reach the
creation leaves the cluster without a job. -/
theorem reconcileOnce_not_creates (env : Collaborators) (w : Cluster) (h : noJobYet w)
    (hr : ¬ reachesCreation env w) : noJobYet (reconcileOnce env w) := by
  rcases reconcileOnce_front env w with ⟨r, hrw, hn, _⟩ | ⟨hnc, hcfg, hden, htmpl, hrw⟩
  · rw [hrw]; exact noJobYet_record w r hn h
  · have hcf : env.createFails = true := by
      cases hc : env.createFails with
      | true => rfl
      | false => exact absurd ⟨hnc, hcfg, hden, htmpl, hc⟩ hr
    rw [hrw, creation_fails_keeps_cluster env w h hcf]
    exact h

theorem reconcileMany_cons (env : Collaborators) (rest : List Collaborators) (w : Cluster) :
    reconcileMany (env :: rest) w = reconcileMany rest (reconcileOnce env w) := rfl

/-- On a cluster without a job, invocations none of which reaches the
creation leave the cluster without a job. -/
theorem reconcileMany_never_creates (envs : List Collaborators) (w : Cluster)
    (h : noJobYet w)
    (hnever : ∀ pre env post, envs = pre ++ env :: post →
      ¬ reachesCreation env (reconcileMany pre w)) :
    noJobYet (reconcileMany envs w) := by
  induction envs generalizing w with
  | nil => exact h
  | cons e rest ih =>
    have h0 : noJobYet (reconcileOnce e w) :=
      reconcileOnce_not_creates e w h (hnever [] e rest rfl)
    rw [reconcileMany_cons]
    apply ih (reconcileOnce e w) h0
    intro pre env post hrest
    have := hnever (e :: pre) env post (by rw [hrest]; rfl)
    rwa [reconcileMany_cons] at this

/-- On a cluster without a job, invocations one of which reaches the creation
create the one job. -/
theorem reconcileMany_creates (envs : List Collaborators) (w : Cluster) (h : noJobYet w)
    (pre : List Collaborators) (env : Collaborators) (post : List Collaborators)
    (henvs : envs = pre ++ env :: post) (hr : reachesCreation env (reconcileMany pre w)) :
    oneJobCreated (reconcileMany envs w) := by
  have hsplit : reconcileMany envs w =
      reconcileMany post (reconcileOnce env (reconcileMany pre w)) := by
    rw [henvs]; simp [reconcileMany, List.foldl_append]
  rw [hsplit]
  apply reconcileMany_oneJobCreated
  rcases reconcileMany_noJobYet pre w h with h0 | h1
  · exact reconcileOnce_creates env _ h0 hr
  · exact reconcileOnce_oneJobCreated env _ h1

/-- Scenario A of the spec on the pipeline: on a new record with no job, one
invocation, or three, in which the authorization gate denies the request
creates no job, and the record is rejected. -/
theorem denied_request_creates_no_job :
    noJobYet newCluster ∧ isFresh newCluster.record ∧
    (reconcileMany [denying] newCluster).created = 0 ∧
    (reconcileMany [denying, denying, denying] newCluster).created = 0 ∧
    (reconcileMany [denying] newCluster).jobs = [] ∧
    HasFailed (reconcileMany [denying] newCluster).record = true := by
  decide

/-- C16. Idempotent creation on the pipeline of the spec: calling the
pipeline any number of times on a record with no job never creates more
than one job, whatever the collaborators answer in each invocation; the
result is exactly one created job as soon as one of the invocations, the
first or any later one, reaches the creation (the record has not completed,
the configuration loads, the request is allowed, the template is found and
the creation does not fail), however many invocations precede or follow it;
and a job is created only in this way, so that the count is one exactly when
some invocation reaches the creation and zero otherwise. In particular N
invocations with favourable collaborators on a record that has not completed
create one job for every N of at least one. -/
theorem idempotent_job_creation (envs : List Collaborators) (w : Cluster)
    (hno : noJobYet w) :
    (reconcileMany envs w).created ≤ 1 ∧
    (∀ pre env post, envs = pre ++ env :: post →
      reachesCreation env (reconcileMany pre w) → (reconcileMany envs w).created = 1) ∧
    ((reconcileMany envs w).created = 1 ↔
      ∃ pre env post, envs = pre ++ env :: post ∧
        reachesCreation env (reconcileMany pre w)) ∧
    ((reconcileMany envs w).created = 0 ↔
      ∀ pre env post, envs = pre ++ env :: post →
        ¬ reachesCreation env (reconcileMany pre w)) ∧
    (envs ≠ [] → HasCompleted w.record = false →
      (∀ env ∈ envs, env.configLoads = true ∧ env.denied = none ∧
        env.templateFound = true ∧ env.createFails = false) →
      (reconcileMany envs w).created = 1) := by
  have hsome : ∀ pre env post, envs = pre ++ env :: post →
      reachesCreation env (reconcileMany pre w) → (reconcileMany envs w).created = 1 :=
    fun pre env post henvs hr => (reconcileMany_creates envs w hno pre env post henvs hr).1
  have hnone : (∀ pre env post, envs = pre ++ env :: post →
      ¬ reachesCreation env (reconcileMany pre w)) → (reconcileMany envs w).created = 0 :=
    fun hnever => (reconcileMany_never_creates envs w hno hnever).1
  refine ⟨?_, hsome, ⟨?_, ?_⟩, ⟨?_, hnone⟩, ?_⟩
  · rcases reconcileMany_noJobYet envs w hno with h0 | h1
    · rw [h0.1]; exact Nat.zero_le 1
    · rw [h1.1]
  · intro hone
    by_contra hnot
    have hzero := hnone (fun pre env post henvs hr => hnot ⟨pre, env, post, henvs, hr⟩)
    rw [hzero] at hone
    exact absurd hone (by decide)
  · rintro ⟨pre, env, post, henvs, hr⟩
    exact hsome pre env post henvs hr
  · intro hzero pre env post henvs hr
    rw [hsome pre env post henvs hr] at hzero
    exact absurd hzero (by decide)
  · intro hne hnc hall
    cases envs with
    | nil => exact absurd rfl hne
    | cons e rest =>
      obtain ⟨hcfg, hden, htmpl, hcf⟩ := hall e (List.mem_cons_self _ _)
      exact hsome [] e rest rfl ⟨hnc, hcfg, hden, htmpl, hcf⟩

/-- Witness for C16: on a new record, an invocation in which the
configuration fails to load and one in which the creation fails create no
job; the favourable invocation that follows creates the one job, and the
three invocations after it (running, succeeded, one more trigger) create no
second one. -/
theorem idempotent_job_creation_witness :
    noJobYet newCluster ∧
    reachesCreation favourable (reconcileMany [configFailing, createFailing] newCluster) ∧
    (reconcileMany
      ([configFailing, createFailing] ++ favourable :: [favourable, finishing, favourable])
      newCluster).created = 1 :=
  ⟨by decide, by decide,
    (idempotent_job_creation
      ([configFailing, createFailing] ++ favourable :: [favourable, finishing, favourable])
      newCluster (by decide)).2.1 [configFailing, createFailing] favourable
      [favourable, finishing, favourable] rfl (by decide)⟩

end InternalServices
